import Mathlib

/-!
MagiskHide list management (`native/jni/zygisk/hide/utils.cpp`).

A shallow embedding of the hide list, the app-ID map derived from it, the
process scanner and the matcher, followed by theorems about them.

Conventions of the embedding.

* A C string (`const char *`) and a `string_view` are both a `String` holding
  the characters before the terminating NUL; one `Char` stands for one `char`.
* `std::set<string, StringCmp>` is a list of strings kept in `StringCmp` order,
  `std::map` is a key-ordered association list.  `StringCmp` is a strict total
  order, so key equivalence is equality and look-ups compare with `=`.
* The file-level globals are the fields of `State`; constants, macros and
  helpers that live in headers outside this file are the fields of `Env`;
  what the operating system answers during one operation is a `World`.
* Dereferencing a null global (`hide_map_`, `uid_proc_map`, `procfp`) is
  undefined behaviour; the operations return `none` there.
-/

namespace MagiskHide

/-! ## Constants and helpers from the headers -/

/-- Compile-time and boot-time constants of the daemon that this file only uses:
the `ISOLATED_MAGIC` package name, the `APP_DATA_DIR` path, the `to_app_id`
macro, the `parse_int` helper, and the globals `zygisk_enabled`, `SDK_INT`,
`MAGISKTMP` that are fixed before any function of this file runs. -/
structure Env where
  ISOLATED_MAGIC : String
  APP_DATA_DIR : String
  to_app_id : Int → Int
  parse_int : String → Int
  zygisk_enabled : Bool
  SDK_INT : Int
  MAGISKTMP : String

/-- Modelled from the spec: status codes surfaced to the client (success, generic
failure, validation failure, entry-already-exists, entry-not-found,
namespace-unsupported); the enumeration itself is declared in a header. -/
inductive Status
  | DAEMON_SUCCESS
  | DAEMON_ERROR
  | HIDE_INVALID_PKG
  | HIDE_ITEM_EXIST
  | HIDE_ITEM_NOT_EXIST
  | HIDE_NO_NS
  deriving DecidableEq, Repr

/-- `str_eql(s, ss)`: `s == ss` on string views. -/
def str_eql (s ss : String) : Bool := decide (s = ss)

/-- Modelled from the spec: `str_starts(s, ss)` from the utility header, "`s`
starts with `ss`". -/
def str_starts (s ss : String) : Bool := ss.data.isPrefixOf s.data

/-- Modelled from the spec: `str_ends(s, ss)` from the utility header, "`s` ends
with `ss`". -/
def str_ends (s ss : String) : Bool := ss.data.isSuffixOf s.data

/-- `isalnum(c)` in the C locale: an ASCII letter or digit. -/
def isalnum (c : Char) : Bool := c.isAlphanum

/-! ## `validate` -/

/-- The loop over `proc` in the `ISOLATED_MAGIC` branch of `validate`; the
result is `proc_valid`. -/
def validate_isolated_proc : List Char → Bool
  | [] => true
  | c :: proc =>
    if isalnum c || c == '_' || c == '.' then validate_isolated_proc proc
    else if c == ':' then true
    else false

/-- The loop over `pkg` in the other branch of `validate`, started with the
current value of `pkg_valid`; the result is `pkg_valid` after the loop. -/
def validate_pkg : List Char → Bool → Bool
  | [], pkg_valid => pkg_valid
  | c :: pkg, pkg_valid =>
    if isalnum c || c == '_' then validate_pkg pkg pkg_valid
    else if c == '.' then validate_pkg pkg true
    else false

/-- The loop over `proc` in the other branch of `validate`; the result is
`proc_valid`. -/
def validate_proc : List Char → Bool
  | [] => true
  | c :: proc =>
    if isalnum c || c == '_' || c == ':' || c == '.' then validate_proc proc
    else false

/-- `validate(pkg, proc)`. -/
def validate (env : Env) (pkg proc : String) : Bool :=
  if str_eql pkg env.ISOLATED_MAGIC then
    let pkg_valid := true
    let proc_valid := validate_isolated_proc proc.data
    pkg_valid && proc_valid
  else
    let pkg_valid := validate_pkg pkg.data false
    let proc_valid := validate_proc proc.data
    pkg_valid && proc_valid

/-! ## Containers -/

/-- `StringCmp` on the characters of two strings: lexicographic `<` on
`unsigned char` values. -/
def lex_lt : List Char → List Char → Bool
  | [], [] => false
  | [], _ :: _ => true
  | _ :: _, [] => false
  | x :: xs, y :: ys =>
    if x.toNat < y.toNat then true
    else if y.toNat < x.toNat then false
    else lex_lt xs ys

/-- `StringCmp()(a, b)`, the comparator of `str_set` and of `hide_map`. -/
def StringCmp (a b : String) : Bool := lex_lt a.data b.data

/-- `str_set`: a `std::set<string, StringCmp>`, listed in iteration order. -/
abbrev str_set := List String

/-- The type of `hide_map`: package name -> set of process names, listed in
iteration order. -/
abbrev HideMap := List (String × str_set)

/-- The type of `*uid_proc_map`: app ID -> vector of process names, listed in
iteration order.  In the source an entry is a `string_view` into a set node of
`hide_map`; here it is listed by the characters of that node, which is what the
view reads as long as the node exists.  `update_uid_map` rebuilds the whole map
from the nodes of `hide_map`, unless `do_kill` is false. -/
abbrev UidMap := List (Int × List String)

/-- `set.emplace(proc)` on a set that does not hold `proc`: the new element goes
to its place in `StringCmp` order. -/
def str_set_insert (procs : str_set) (proc : String) : str_set :=
  List.orderedInsert (fun a b => StringCmp a b = true) proc procs

/-- `hide_map[pkg].emplace(proc)`: `operator[]` creates an empty set for a new
package, `emplace` adds `proc` unless the set holds it already.  The second
component is `p.second`, whether an insertion took place. -/
def hide_map_emplace (hm : HideMap) (pkg proc : String) : HideMap × Bool :=
  match hm.lookup pkg with
  | some procs =>
    if proc ∈ procs then (hm, false)
    else (hm.map (fun e => if e.1 = pkg then (e.1, str_set_insert e.2 proc) else e), true)
  | none =>
    (List.orderedInsert (fun a b => StringCmp a.1 b.1 = true) (pkg, [proc]) hm, true)

/-- `hide_map.erase(pkg) != 0`: drops the package entry; the second component
tells whether there was one. -/
def hide_map_erase (hm : HideMap) (pkg : String) : HideMap × Bool :=
  (hm.filter (fun e => decide (e.1 ≠ pkg)), (hm.lookup pkg).isSome)

/-- `it = hide_map.find(pkg); it != end && it->second.erase(proc) != 0`: drops
one process name from the set of `pkg`; the package key stays. -/
def hide_map_erase_proc (hm : HideMap) (pkg proc : String) : HideMap × Bool :=
  match hm.lookup pkg with
  | some procs =>
    if proc ∈ procs then
      (hm.map (fun e =>
        if e.1 = pkg then (e.1, e.2.filter (fun x => decide (x ≠ proc))) else e), true)
    else (hm, false)
  | none => (hm, false)

/-- `(*uid_proc_map)[app_id].emplace_back(proc)`: `operator[]` creates an empty
vector for a new key, `emplace_back` appends. -/
def uid_map_emplace_back (um : UidMap) (app_id : Int) (proc : String) : UidMap :=
  match um.lookup app_id with
  | some _ => um.map (fun e => if e.1 = app_id then (e.1, e.2 ++ [proc]) else e)
  | none => List.orderedInsert (fun a b => a.1 < b.1) (app_id, [proc]) um

/-! ## State and environment -/

/-- What a scan does to the outside world, in order: `probe pid` is one call of
the filter on `pid` (it opens `/proc/<pid>/cmdline`), `kill pid` is
`kill(pid, SIGKILL)`. -/
inductive Event
  | probe (pid : Int)
  | kill (pid : Int)
  deriving DecidableEq, Repr

/-- What `open_file("/proc/<pid>/cmdline")` followed by `fgets` finds. -/
inductive Cmdline
  | unreadable
  | empty
  | text (buf : String)
  deriving DecidableEq, Repr

/-- The answers of the operating system and of the collaborators during one
operation.

* `proc_entries`: the `d_name` of every entry `readdir` yields for `/proc`
  after a rewind, in order; `cmdline pid`: the command-line file of `pid`.
* `users`: the names `xreaddir` yields for `APP_DATA_DIR`, `none` when
  `open_dir` fails; `stat path`: the `st_uid` of `path`, `none` when `stat` fails.
* `db_select_error = some k`: `SELECT * FROM hidelist` fails after delivering `k`
  rows; the other `db_*_error` flags: `db_exec` returns an error for that
  statement.
* `inotify_init1`: the value of `xinotify_init1`; `access_ns_mnt`: whether
  `access("/proc/self/ns/mnt", F_OK) == 0`; `opendir_proc`: whether
  `opendir("/proc")` succeeds; `new_daemon_thread`: its return value. -/
structure World where
  proc_entries : List String
  cmdline : Int → Cmdline
  users : Option (List String)
  stat : String → Option Int
  db_select_error : Option Nat
  db_insert_error : Bool
  db_delete_error : Bool
  db_replace_error : Bool
  inotify_init1 : Int
  access_ns_mnt : Bool
  opendir_proc : Bool
  new_daemon_thread : Int

/-- The globals of the file (`hide_map_`, `uid_proc_map`, `inotify_fd`,
`hide_enabled`, `procfp`; `none` and `false` stand for null), the durable store
(rows of table `hidelist`, the `HIDE_CONFIG` row of table `settings`) and the
trace of scan effects so far. -/
structure State where
  hide_map_ : Option HideMap
  uid_proc_map : Option UidMap
  inotify_fd : Int
  hide_enabled : Bool
  procfp : Bool
  db_hidelist : List (String × String)
  db_hide_config : Option Bool
  trace : List Event
  deriving DecidableEq, Repr

/-- The state at process start: the static initialisers, over a given durable
store. -/
def State.boot (rows : List (String × String)) (cfg : Option Bool) : State :=
  { hide_map_ := none, uid_proc_map := none, inotify_fd := -1, hide_enabled := false,
    procfp := false, db_hidelist := rows, db_hide_config := cfg, trace := [] }

/-- `do_kill`: `zygisk_enabled && hide_enabled`. -/
def do_kill (env : Env) (s : State) : Bool := env.zygisk_enabled && s.hide_enabled

/-! ## `update_uid_map` -/

/-- The loop over `users` in `update_uid_map` for one package; the result is
`app_id`, which starts at `-1`.  The loop leaves at the first profile whose
`stat` call returns non-zero, and reads `st.st_uid` there: `st` is
value-initialised (`struct stat st{}`) and a failing `stat` does not fill it,
so the owner read is `0`. -/
def find_app_id (env : Env) (w : World) (pkg : String) : List String → Int
  | [] => -1
  | user_id :: users =>
    let data_path := env.APP_DATA_DIR ++ "/" ++ user_id ++ "/" ++ pkg
    match w.stat data_path with
    | none =>
      let st_uid : Int := 0
      env.to_app_id st_uid
    | some _ => find_app_id env w pkg users

/-- The loop `for (proc : procs) (*uid_proc_map)[app_id].emplace_back(proc)`. -/
def emplace_procs (app_id : Int) : List String → UidMap → UidMap
  | [], um => um
  | proc :: procs, um => emplace_procs app_id procs (uid_map_emplace_back um app_id proc)

/-- The loop over `hide_map` in `update_uid_map`. -/
def fill_uid_map (env : Env) (w : World) (users : List String) : HideMap → UidMap → UidMap
  | [], um => um
  | (pkg, procs) :: rest, um =>
    if pkg ≠ env.ISOLATED_MAGIC then
      let app_id := find_app_id env w pkg users
      if app_id < 0 then fill_uid_map env w users rest um
      else fill_uid_map env w users rest (emplace_procs app_id procs um)
    else
      fill_uid_map env w users rest (emplace_procs (-1) procs um)

/-- `update_uid_map()`. -/
def update_uid_map (env : Env) (w : World) (s : State) : Option State :=
  if !do_kill env s then some s
  else
    match s.uid_proc_map with
    | none => none
    | some _ =>
      let s1 := { s with uid_proc_map := some [] }
      match w.users with
      | none => some s1
      | some users =>
        match s1.hide_map_ with
        | none => none
        | some hm => some { s1 with uid_proc_map := some (fill_uid_map env w users hm []) }

/-! ## Process scanner and matcher -/

/-- `crawl_procfs(DIR *dir, fn)`: the loop over the entries of `dir`. -/
def crawl_procfs_dir (env : Env) (fn : Int → State → Bool × State) :
    List String → State → State
  | [], s => s
  | dp :: dir, s =>
    let pid := env.parse_int dp
    if pid > 0 then
      match fn pid s with
      | (false, s1) => s1
      | (true, s1) => crawl_procfs_dir env fn dir s1
    else crawl_procfs_dir env fn dir s

/-- `crawl_procfs(fn)`: rewinds `procfp` and crawls it. -/
def crawl_procfs (env : Env) (w : World) (fn : Int → State → Bool × State) (s : State) :
    Option State :=
  if s.procfp then some (crawl_procfs_dir env fn w.proc_entries s) else none

/-- The string `buf` holds when `str_op(buf, name)` is evaluated in
`proc_name_match`, `none` when the file cannot be opened.  `buf` first holds
the path printed by `sprintf`; an `fgets` that reads nothing leaves it there. -/
def cmdline_buf (w : World) (pid : Int) : Option String :=
  match w.cmdline pid with
  | Cmdline.unreadable => none
  | Cmdline.empty => some ("/proc/" ++ toString pid ++ "/cmdline")
  | Cmdline.text buf => some buf

/-- `proc_name_match<str_op>(pid, name)`. -/
def proc_name_match (str_op : String → String → Bool) (w : World) (pid : Int)
    (name : String) : Bool :=
  match cmdline_buf w pid with
  | some buf => str_op buf name
  | none => false

/-- The lambda `kill_process` hands to `crawl_procfs`. -/
def kill_process_fn (name : String) (multi : Bool) (filter : Int → String → Bool)
    (pid : Int) (s : State) : Bool × State :=
  let s1 := { s with trace := s.trace ++ [Event.probe pid] }
  if filter pid name then (multi, { s1 with trace := s1.trace ++ [Event.kill pid] })
  else (true, s1)

/-- `kill_process(name, multi, filter)`. -/
def kill_process (env : Env) (w : World) (name : String) (multi : Bool)
    (filter : Int → String → Bool) (s : State) : Option State :=
  crawl_procfs env w (kill_process_fn name multi filter) s

/-- `str_ends_safe(s, ss)`. -/
def str_ends_safe (s ss : String) : Bool :=
  if s = "webview_zygote" then false else str_ends s ss

/-! ## The hide list -/

/-- `add_hide_set(pkg, proc)`. -/
def add_hide_set (env : Env) (w : World) (pkg proc : String) (s : State) :
    Option (Bool × State) :=
  match s.hide_map_ with
  | none => none
  | some hm =>
    let p := hide_map_emplace hm pkg proc
    let s1 := { s with hide_map_ := some p.1 }
    if !p.2 then some (false, s1)
    else if !do_kill env s1 then some (true, s1)
    else if str_eql pkg env.ISOLATED_MAGIC then
      (kill_process env w proc true (proc_name_match str_starts w) s1).map (fun s2 => (true, s2))
    else
      (kill_process env w proc false (proc_name_match str_eql w) s1).map (fun s2 => (true, s2))

/-- The row callback of `SELECT * FROM hidelist` in `init_list`, run over the
rows the statement delivers: `add_hide_set(row["package_name"], row["process"])`. -/
def load_rows (env : Env) (w : World) : List (String × String) → State → Option State
  | [], s => some s
  | row :: rows, s =>
    match add_hide_set env w row.1 row.2 s with
    | none => none
    | some (_, s1) => load_rows env w rows s1

/-- The rows `SELECT * FROM hidelist` delivers to its callback. -/
def db_select_rows (w : World) (s : State) : List (String × String) :=
  match w.db_select_error with
  | none => s.db_hidelist
  | some k => s.db_hidelist.take k

/-- `init_list()`.  `default_new(p)` stores a fresh empty container in `p`. -/
def init_list (env : Env) (w : World) (s : State) : Option (Bool × State) :=
  if s.uid_proc_map.isSome then some (true, s)
  else
    let s1 := { s with hide_map_ := some [] }
    match load_rows env w (db_select_rows w s1) s1 with
    | none => none
    | some s2 =>
      if w.db_select_error.isSome then some (false, s2)
      else
        let s3 := { s2 with uid_proc_map := some [] }
        match update_uid_map env w s3 with
        | none => none
        | some s4 =>
          let s5 := { s4 with inotify_fd := w.inotify_init1 }
          if s5.inotify_fd < 0 then some (false, s5)
          else some (true, s5)

/-- `snprintf(sql, sizeof(sql), ...)` with `char sql[4096]`: `sql` holds the
formatted text when that has at most 4095 characters, and its first 4095
characters otherwise. -/
def snprintf_sql (text : String) : String := ⟨text.data.take 4095⟩

/-- The text `"INSERT INTO hidelist (package_name, process) VALUES('%s', '%s')"`
formats for `pkg` and `proc`. -/
def insert_sql (pkg proc : String) : String :=
  "INSERT INTO hidelist (package_name, process) VALUES('" ++ pkg ++ "', '" ++ proc ++ "')"

/-- The text the `DELETE` statement of `rm_list` is formatted to:
`"DELETE FROM hidelist WHERE package_name='%s'"` for an empty `proc`,
`"DELETE FROM hidelist WHERE package_name='%s' AND process='%s'"` otherwise. -/
def delete_sql (pkg proc : String) : String :=
  if proc = "" then "DELETE FROM hidelist WHERE package_name='" ++ pkg ++ "'"
  else "DELETE FROM hidelist WHERE package_name='" ++ pkg ++ "' AND process='" ++ proc ++ "'"

/-- Whether `db_exec(sql)` returns an error, for `sql` filled by `snprintf` from
`text`: when the world makes the statement fail, and whenever `sql` is not the
whole of `text`.  A text cut short by `snprintf` has lost its end and is
modelled as a statement that `db_exec` rejects. -/
def db_exec_fails (flag : Bool) (sql text : String) : Bool :=
  flag || decide (sql ≠ text)

/-- The tail of `add_list`: `snprintf(sql, sizeof(sql), "INSERT ...", pkg, proc)`
and `err = db_exec(sql)`; whether `err` is set. -/
def insert_fails (w : World) (pkg proc : String) : Bool :=
  let sql := snprintf_sql (insert_sql pkg proc)
  db_exec_fails w.db_insert_error sql (insert_sql pkg proc)

/-- The tail of `rm_list`: `snprintf(sql, sizeof(sql), "DELETE ...", ...)` and
`err = db_exec(sql)`; whether `err` is set. -/
def delete_fails (w : World) (pkg proc : String) : Bool :=
  let sql := snprintf_sql (delete_sql pkg proc)
  db_exec_fails w.db_delete_error sql (delete_sql pkg proc)

/-- `add_list(pkg, proc)`.  The `INSERT INTO hidelist` statement is formatted
into `sql[4096]` and appends the row `(pkg, proc)` to the table unless `db_exec`
returns an error. -/
def add_list (env : Env) (w : World) (pkg proc : String) (s : State) :
    Option (Status × State) :=
  let proc := if proc = "" then pkg else proc
  if !validate env pkg proc then some (Status.HIDE_INVALID_PKG, s)
  else
    match init_list env w s with
    | none => none
    | some (false, s1) => some (Status.DAEMON_ERROR, s1)
    | some (true, s1) =>
      match add_hide_set env w pkg proc s1 with
      | none => none
      | some (false, s2) => some (Status.HIDE_ITEM_EXIST, s2)
      | some (true, s2) =>
        match update_uid_map env w s2 with
        | none => none
        | some s3 =>
          if insert_fails w pkg proc then some (Status.DAEMON_ERROR, s3)
          else some (Status.DAEMON_SUCCESS,
            { s3 with db_hidelist := s3.db_hidelist ++ [(pkg, proc)] })

/-- `rm_list(pkg, proc)`.  The `DELETE FROM hidelist` statement is formatted into
`sql[4096]` and drops the rows of the package, or the one row `(pkg, proc)`,
unless `db_exec` returns an error. -/
def rm_list (env : Env) (w : World) (pkg proc : String) (s : State) :
    Option (Status × State) :=
  match init_list env w s with
  | none => none
  | some (false, s1) => some (Status.DAEMON_ERROR, s1)
  | some (true, s1) =>
    match s1.hide_map_ with
    | none => none
    | some hm =>
      let r := if proc = "" then hide_map_erase hm pkg else hide_map_erase_proc hm pkg proc
      let s2 := { s1 with hide_map_ := some r.1 }
      if !r.2 then some (Status.HIDE_ITEM_NOT_EXIST, s2)
      else
        match update_uid_map env w s2 with
        | none => none
        | some s3 =>
          if delete_fails w pkg proc then some (Status.DAEMON_ERROR, s3)
          else if proc = "" then
            some (Status.DAEMON_SUCCESS,
              { s3 with db_hidelist := s3.db_hidelist.filter (fun row => decide (row.1 ≠ pkg)) })
          else
            some (Status.DAEMON_SUCCESS,
              { s3 with db_hidelist :=
                  s3.db_hidelist.filter (fun row => decide (row ≠ (pkg, proc))) })

/-- One item written to the client socket by `ls_list`. -/
inductive Out
  | status (r : Status)
  | int (n : Nat)
  | bytes (b : String)
  deriving DecidableEq, Repr

/-- The inner loop of `ls_list` for one package. -/
def ls_procs (pkg : String) : List String → List Out
  | [] => []
  | proc :: procs =>
    [Out.int (pkg.length + proc.length + 1), Out.bytes pkg, Out.bytes "|", Out.bytes proc]
      ++ ls_procs pkg procs

/-- The outer loop of `ls_list`. -/
def ls_records : HideMap → List Out
  | [] => []
  | (pkg, procs) :: rest => ls_procs pkg procs ++ ls_records rest

/-- `ls_list(client)`: what is written to the client, in order. -/
def ls_list (env : Env) (w : World) (s : State) : Option (List Out × State) :=
  match init_list env w s with
  | none => none
  | some (false, s1) => some ([Out.status Status.DAEMON_ERROR], s1)
  | some (true, s1) =>
    match s1.hide_map_ with
    | none => none
    | some hm =>
      some ([Out.status Status.DAEMON_SUCCESS] ++ ls_records hm ++ [Out.int 0], s1)

/-! ## Enabling and disabling -/

/-- `update_hide_config()`: the `REPLACE INTO settings` statement stores
`hide_enabled` unless it fails; a failure is only logged. -/
def update_hide_config (w : World) (s : State) : State :=
  if w.db_replace_error then s else { s with db_hide_config := some s.hide_enabled }

/-- `SNET_PROC`. -/
def SNET_PROC : String := "com.google.android.gms.unstable"

/-- `GMS_PKG`. -/
def GMS_PKG : String := "com.google.android.gms"

/-- The three scans of `launch_magiskhide` on Android Q and later. -/
def launch_kills (env : Env) (w : World) (s : State) : Option State :=
  if env.SDK_INT ≥ 29 && env.zygisk_enabled then
    match kill_process env w "usap32" true (proc_name_match str_eql w) s with
    | none => none
    | some s1 =>
      match kill_process env w "usap64" true (proc_name_match str_eql w) s1 with
      | none => none
      | some s2 => kill_process env w "_zygote" true (proc_name_match str_ends_safe w) s2
  else some s

/-- `launch_magiskhide(late_props)`.  The property redaction, which is all that
`late_props` selects, and the monitor thread belong to other files and touch
nothing of `State`; the argument is left out. -/
def launch_magiskhide (env : Env) (w : World) (s : State) : Option (Status × State) :=
  if s.hide_enabled then some (Status.DAEMON_SUCCESS, s)
  else if !w.access_ns_mnt then some (Status.HIDE_NO_NS, s)
  else if !s.procfp && !w.opendir_proc then some (Status.DAEMON_ERROR, s)
  else
    let s1 := { s with procfp := true, hide_enabled := true }
    match init_list env w s1 with
    | none => none
    | some (false, s2) => some (Status.DAEMON_ERROR, { s2 with hide_enabled := false })
    | some (true, s2) =>
      match launch_kills env w s2 with
      | none => none
      | some s3 =>
        match add_hide_set env w GMS_PKG SNET_PROC s3 with
        | none => none
        | some (_, s4) =>
          match (if env.MAGISKTMP ≠ "/sbin" then add_hide_set env w GMS_PKG GMS_PKG s4
                 else some (true, s4)) with
          | none => none
          | some (_, s5) =>
            if w.new_daemon_thread ≠ 0 then some (Status.DAEMON_ERROR, s5)
            else
              match update_uid_map env w s5 with
              | none => none
              | some s6 => some (Status.DAEMON_SUCCESS, update_hide_config w s6)

/-- `stop_magiskhide()`. -/
def stop_magiskhide (w : World) (s : State) : Status × State :=
  let s1 :=
    if s.hide_enabled then
      { s with hide_map_ := none, uid_proc_map := none, inotify_fd := -1 }
    else s
  let s2 := { s1 with hide_enabled := false }
  (Status.DAEMON_SUCCESS, update_hide_config w s2)

/-! ## `is_hide_target` -/

/-- An `int` converted to `size_t` by the usual arithmetic conversions (64-bit
`size_t`). -/
def to_size_t (x : Int) : Nat := (x % 2 ^ 64).toNat

/-- The loop over the `-1` bucket in the isolated branch of `is_hide_target`. -/
def isolated_match (process : String) (max_len : Int) : List String → Bool
  | [] => false
  | s :: bucket =>
    if decide (s.length > to_size_t max_len) && decide (process.length > to_size_t max_len)
        && str_starts s process then true
    else if str_starts process s then true
    else isolated_match process max_len bucket

/-- The loop over the bucket of `app_id` in the other branch of `is_hide_target`. -/
def normal_match (process : String) (max_len : Int) : List String → Bool
  | [] => false
  | s :: bucket =>
    if decide (s.length > to_size_t max_len) && decide (process.length > to_size_t max_len)
        && str_starts s process then true
    else if s = process then true
    else normal_match process max_len bucket

/-- `is_hide_target(uid, process, max_len)`. -/
def is_hide_target (env : Env) (w : World) (uid : Int) (process : String) (max_len : Int)
    (s : State) : Option (Bool × State) :=
  match init_list env w s with
  | none => none
  | some (false, s1) => some (false, s1)
  | some (true, s1) =>
    match s1.uid_proc_map with
    | none => none
    | some um =>
      let app_id := env.to_app_id uid
      if app_id ≥ 90000 then
        match um.lookup (-1) with
        | none => some (false, s1)
        | some bucket => some (isolated_match process max_len bucket, s1)
      else
        match um.lookup app_id with
        | none => some (false, s1)
        | some bucket => some (normal_match process max_len bucket, s1)

/-! ## Reachable states -/

/-- One call of an entry point of the file, with its arguments. -/
inductive Op
  | add (pkg proc : String)
  | rm (pkg proc : String)
  | ls
  | launch
  | stop
  | query (uid : Int) (process : String) (max_len : Int)

/-- The state after one entry point has run in world `w`, `none` on undefined
behaviour. -/
def step (env : Env) (w : World) (s : State) : Op → Option State
  | Op.add pkg proc => (add_list env w pkg proc s).map Prod.snd
  | Op.rm pkg proc => (rm_list env w pkg proc s).map Prod.snd
  | Op.ls => (ls_list env w s).map Prod.snd
  | Op.launch => (launch_magiskhide env w s).map Prod.snd
  | Op.stop => some (stop_magiskhide w s).2
  | Op.query uid process max_len => (is_hide_target env w uid process max_len s).map Prod.snd

/-- The states the daemon can be in: from the static initialisers over any
durable store, after any sequence of entry-point calls, each in a world of its
own. -/
inductive Reachable (env : Env) : State → Prop
  | boot (rows : List (String × String)) (cfg : Option Bool) :
      Reachable env (State.boot rows cfg)
  | step (w : World) (op : Op) (s t : State) :
      Reachable env s → step env w s op = some t → Reachable env t

/-! ## Auxiliary definitions used in the statements -/

/-- The truncation test of `is_hide_target`. -/
def trunc_hit (process : String) (max_len : Int) (s : String) : Bool :=
  decide (s.length > to_size_t max_len) && decide (process.length > to_size_t max_len)
    && str_starts s process

/-- The key under which `update_uid_map` files the process names of `pkg`, `none`
when the package is skipped. -/
def resolve_app_id (env : Env) (w : World) (users : List String) (pkg : String) : Option Int :=
  if pkg ≠ env.ISOLATED_MAGIC then
    if find_app_id env w pkg users < 0 then none else some (find_app_id env w pkg users)
  else some (-1)

/-- The process names `update_uid_map` files under key `k`, in order. -/
def names_under (env : Env) (w : World) (users : List String) (k : Int) : HideMap → List String
  | [] => []
  | (pkg, procs) :: rest =>
    (if resolve_app_id env w users pkg = some k then procs else [])
      ++ names_under env w users k rest

/-- The candidate process IDs of a scan: the positive values `parse_int` gives
for the entries of `/proc`, in enumeration order. -/
def scan_pids (env : Env) (dir : List String) : List Int :=
  (dir.map env.parse_int).filter (fun pid => decide (pid > 0))

/-- The events one `kill_process` scan appends to the trace. -/
def scan_trace (env : Env) (name : String) (multi : Bool) (filter : Int → String → Bool) :
    List String → List Event
  | [] => []
  | dp :: dir =>
    if env.parse_int dp > 0 then
      if filter (env.parse_int dp) name then
        [Event.probe (env.parse_int dp), Event.kill (env.parse_int dp)]
          ++ (if multi then scan_trace env name multi filter dir else [])
      else Event.probe (env.parse_int dp) :: scan_trace env name multi filter dir
    else scan_trace env name multi filter dir

/-- The state after a sequence of entry-point calls, all in world `w`. -/
def run (env : Env) (w : World) : List Op → State → Option State
  | [], s => some s
  | op :: ops, s => (step env w s op).bind (run env w ops)

/-- The globals other than `hide_map_`, and the durable store, agree in `s` and `t`. -/
def same_but_hide_map (s t : State) : Prop :=
  t.uid_proc_map = s.uid_proc_map ∧ t.inotify_fd = s.inotify_fd ∧
  t.hide_enabled = s.hide_enabled ∧ t.procfp = s.procfp ∧
  t.db_hidelist = s.db_hidelist ∧ t.db_hide_config = s.db_hide_config

/-- The app-ID map is null or the outcome of the loop of `update_uid_map` run on
an empty map. -/
def uid_map_built (env : Env) (o : Option UidMap) : Prop :=
  ∀ um, o = some um → ∃ w users hm, um = fill_uid_map env w users hm []

/-- From `s` to `t` the app-ID map is kept, or it is a freshly built one. -/
def uid_map_kept_or_built (env : Env) (s t : State) : Prop :=
  t.uid_proc_map = s.uid_proc_map ∨ uid_map_built env t.uid_proc_map

/-- Whether the pair `(pkg, proc)` is in the hide list:
`it = hide_map.find(pkg); it != end && it->second.count(proc)`. -/
def in_registry (hm : HideMap) (pkg proc : String) : Bool :=
  match hm.lookup pkg with
  | some procs => decide (proc ∈ procs)
  | none => false

/-- The hide list and the `remove` flag after the erase step of `rm_list`. -/
def rm_erase (hm : HideMap) (pkg proc : String) : HideMap × Bool :=
  if proc = "" then hide_map_erase hm pkg else hide_map_erase_proc hm pkg proc

/-- The rows of table `hidelist` after the `DELETE` statement of `rm_list`. -/
def rm_rows (rows : List (String × String)) (pkg proc : String) : List (String × String) :=
  if proc = "" then rows.filter (fun row => decide (row.1 ≠ pkg))
  else rows.filter (fun row => decide (row ≠ (pkg, proc)))

/-- The map `update_uid_map` builds from hide list `hm` in world `w` when
enforcement is active. -/
def recomputed (env : Env) (w : World) (hm : HideMap) : UidMap :=
  match w.users with
  | none => []
  | some users => fill_uid_map env w users hm []

/-- The hide list after `hide_map[pkg].emplace(proc)` for every row, in order. -/
def emplace_rows (hm : HideMap) : List (String × String) → HideMap
  | [] => hm
  | row :: rows => emplace_rows (hide_map_emplace hm row.1 row.2).1 rows

/-- Hiding is disabled and the app-ID map is null or empty (and the hide list is
allocated whenever the map is). -/
def quiet (s : State) : Prop :=
  s.hide_enabled = false ∧ (s.uid_proc_map = none ∨ s.uid_proc_map = some []) ∧
  (s.uid_proc_map.isSome = true → s.hide_map_.isSome = true)

/-- The states reached from `s0` by entry-point calls other than
`launch_magiskhide`, each in a world of its own. -/
inductive ReachedWithoutLaunch (env : Env) (s0 : State) : State → Prop
  | start : ReachedWithoutLaunch env s0 s0
  | step (w : World) (op : Op) (s t : State) :
      ReachedWithoutLaunch env s0 s → op ≠ Op.launch → step env w s op = some t →
      ReachedWithoutLaunch env s0 t

/-- A sample `parse_int`: the decimal value of a name made of digits, `-1` for
any other name. -/
def parse_int_digits (name : String) : Int :=
  if name.data.all Char.isDigit then
    Int.ofNat (name.data.foldl (fun val c => val * 10 + (c.toNat - 48)) 0)
  else -1

/-- A sample environment: the values of a stock Android 11 build with Zygisk. -/
def Env.android : Env where
  ISOLATED_MAGIC := "isolated"
  APP_DATA_DIR := "/data/user_de"
  to_app_id := fun uid => uid.tmod 100000
  parse_int := parse_int_digits
  zygisk_enabled := true
  SDK_INT := 30
  MAGISKTMP := "/sbin"

/-- A world in which nothing fails and nothing runs. -/
def World.quiet : World where
  proc_entries := []
  cmdline := fun _ => Cmdline.unreadable
  users := some []
  stat := fun _ => none
  db_select_error := none
  db_insert_error := false
  db_delete_error := false
  db_replace_error := false
  inotify_init1 := 3
  access_ns_mnt := true
  opendir_proc := true
  new_daemon_thread := 0

/-- A sample world: a small process table, one user profile holding the data
directory of `com.example.app`, no failure. -/
def World.sample : World where
  proc_entries := [".", "..", "1", "self", "42", "77", "90"]
  cmdline := fun pid =>
    if pid = 1 then Cmdline.text "init"
    else if pid = 42 then Cmdline.text "com.example.app"
    else if pid = 77 then Cmdline.text "webview_zygote"
    else if pid = 90 then Cmdline.text "com.android.chrome_zygote"
    else Cmdline.unreadable
  users := some ["0"]
  stat := fun path => if path = "/data/user_de/0/com.example.app" then some 10123 else none
  db_select_error := none
  db_insert_error := false
  db_delete_error := false
  db_replace_error := false
  inotify_init1 := 3
  access_ns_mnt := true
  opendir_proc := true
  new_daemon_thread := 0

/-- The sample world with an application-data root that cannot be opened. -/
def World.no_data_dir : World := { World.sample with users := none }

/-- An enabled state with the given hide list and app-ID map. -/
def State.ready (hm : HideMap) (um : UidMap) : State :=
  { hide_map_ := some hm, uid_proc_map := some um, inotify_fd := 3, hide_enabled := true,
    procfp := true, db_hidelist := [], db_hide_config := some true, trace := [] }

/-- The state after `launch_magiskhide` from boot over an empty store, in the
sample world. -/
def State.sample_enabled : State :=
  (run Env.android World.sample [Op.launch] (State.boot [] none)).getD (State.boot [] none)

/-- The state after `add_list("isolated", "sandbox_proc")` on `sample_enabled`,
in the sample world. -/
def State.sample_isolated : State :=
  (run Env.android World.sample [Op.add "isolated" "sandbox_proc"] State.sample_enabled).getD
    State.sample_enabled

/-- The state after `rm_list("isolated", "sandbox_proc")` on `sample_isolated`,
in the sample world. -/
def State.sample_removed : State :=
  (run Env.android World.sample [Op.rm "isolated" "sandbox_proc"] State.sample_isolated).getD
    State.sample_isolated

/-- The sample world with a change-notification descriptor that cannot be
created: `xinotify_init1` returns `-1`. -/
def World.no_inotify : World := { World.sample with inotify_init1 := -1 }

/-- The state after `launch_magiskhide` has failed from boot over a store with
the one row `("isolated", "sandbox_proc")`, in world `no_inotify`. -/
def State.sample_failed_enable : State :=
  (run Env.android World.no_inotify [Op.launch]
    (State.boot [("isolated", "sandbox_proc")] none)).getD (State.boot [] none)

/-- The state after `stop_magiskhide`, `ls_list`, `add_list("com.example.app", "")`
and `rm_list("com.example.app", "")` on `sample_failed_enable`, in the sample
world. -/
def State.sample_stale : State :=
  (run Env.android World.sample
    [Op.stop, Op.ls, Op.add "com.example.app" "", Op.rm "com.example.app" ""]
    State.sample_failed_enable).getD (State.boot [] none)

/-- The name made of `n` times `a`, then `.b`. -/
def long_name (n : Nat) : String := ⟨List.replicate n 'a' ++ ['.', 'b']⟩

/-- A package name of 2019 characters that passes `validate`: 2017 times `a`,
then `.b`. -/
def long_package : String := long_name 2017

/-- The state after `ls_list` from boot over a store with the one row
`("com.example.x", "")`, in the sample world. -/
def State.sample_blank : State :=
  (run Env.android World.sample [Op.ls] (State.boot [("com.example.x", "")] none)).getD
    (State.boot [] none)

/-! ## Theorems -/

/-! ### `validate` -/

theorem validate_pkg_iff (l : List Char) (v : Bool) :
    validate_pkg l v = true ↔
      (∀ c ∈ l, isalnum c = true ∨ c = '_' ∨ c = '.') ∧ (v = true ∨ '.' ∈ l) := by
  induction l generalizing v with
  | nil => simp [validate_pkg]
  | cons c l ih =>
    unfold validate_pkg
    by_cases h1 : (isalnum c || c == '_') = true
    · rw [if_pos h1, ih]
      have hc : c ≠ '.' := by
        rintro rfl
        revert h1
        decide
      have h1' : isalnum c = true ∨ c = '_' := by simpa using h1
      constructor
      · rintro ⟨ha, hv⟩
        refine ⟨?_, ?_⟩
        · intro x hx
          rcases List.mem_cons.1 hx with rfl | hx
          · rcases h1' with h | h
            · exact Or.inl h
            · exact Or.inr (Or.inl h)
          · exact ha x hx
        · rcases hv with hv | hv
          · exact Or.inl hv
          · exact Or.inr (List.mem_cons_of_mem _ hv)
      · rintro ⟨ha, hv⟩
        refine ⟨fun x hx => ha x (List.mem_cons_of_mem _ hx), ?_⟩
        rcases hv with hv | hv
        · exact Or.inl hv
        · rcases List.mem_cons.1 hv with h | h
          · exact absurd h.symm hc
          · exact Or.inr h
    · rw [if_neg h1]
      have h1' : ¬ isalnum c = true ∧ c ≠ '_' := by simpa using h1
      by_cases h2 : (c == '.') = true
      · rw [if_pos h2, ih]
        have hc : c = '.' := by simpa using h2
        subst hc
        constructor
        · rintro ⟨ha, _⟩
          refine ⟨?_, Or.inr (List.mem_cons_self _ _)⟩
          intro x hx
          rcases List.mem_cons.1 hx with rfl | hx
          · exact Or.inr (Or.inr rfl)
          · exact ha x hx
        · rintro ⟨ha, _⟩
          exact ⟨fun x hx => ha x (List.mem_cons_of_mem _ hx), Or.inl rfl⟩
      · rw [if_neg h2]
        have hc : c ≠ '.' := by simpa using h2
        constructor
        · intro h; cases h
        · rintro ⟨ha, _⟩
          rcases ha c (List.mem_cons_self _ _) with h | h | h
          · exact absurd h h1'.1
          · exact absurd h h1'.2
          · exact absurd h hc

theorem validate_proc_iff (l : List Char) :
    validate_proc l = true ↔ ∀ c ∈ l, isalnum c = true ∨ c = '_' ∨ c = ':' ∨ c = '.' := by
  induction l with
  | nil => simp [validate_proc]
  | cons c l ih =>
    unfold validate_proc
    by_cases h1 : (isalnum c || c == '_' || c == ':' || c == '.') = true
    · rw [if_pos h1, ih]
      have h1' : ((isalnum c = true ∨ c = '_') ∨ c = ':') ∨ c = '.' := by simpa using h1
      constructor
      · intro ha x hx
        rcases List.mem_cons.1 hx with rfl | hx
        · tauto
        · exact ha x hx
      · intro ha x hx
        exact ha x (List.mem_cons_of_mem _ hx)
    · rw [if_neg h1]
      have h1' : ¬ (((isalnum c = true ∨ c = '_') ∨ c = ':') ∨ c = '.') := by simpa using h1
      constructor
      · intro h; cases h
      · intro ha
        exact absurd (by have := ha c (List.mem_cons_self _ _); tauto) h1'

theorem validate_isolated_proc_iff (l : List Char) :
    validate_isolated_proc l = true ↔
      ∀ c ∈ l.takeWhile (fun c => c != ':'), isalnum c = true ∨ c = '_' ∨ c = '.' := by
  induction l with
  | nil => simp [validate_isolated_proc]
  | cons c l ih =>
    unfold validate_isolated_proc
    by_cases h1 : (isalnum c || c == '_' || c == '.') = true
    · rw [if_pos h1, ih]
      have hc : (c != ':') = true := by
        have : c ≠ ':' := by
          rintro rfl
          revert h1
          decide
        simpa using this
      have h1' : (isalnum c = true ∨ c = '_') ∨ c = '.' := by simpa using h1
      rw [List.takeWhile_cons, if_pos hc]
      constructor
      · intro ha x hx
        rcases List.mem_cons.1 hx with rfl | hx
        · tauto
        · exact ha x hx
      · intro ha x hx
        exact ha x (List.mem_cons_of_mem _ hx)
    · rw [if_neg h1]
      have h1' : ¬ ((isalnum c = true ∨ c = '_') ∨ c = '.') := by simpa using h1
      by_cases h2 : (c == ':') = true
      · rw [if_pos h2]
        have hc : c = ':' := by simpa using h2
        subst hc
        simp
      · rw [if_neg h2]
        have hc : (c != ':') = true := by simpa using h2
        rw [List.takeWhile_cons, if_pos hc]
        constructor
        · intro h; cases h
        · intro ha
          exact absurd (by have := ha c (List.mem_cons_self _ _); tauto) h1'

theorem validate_isolated_proc_tail (pre tail tail2 : List Char) :
    validate_isolated_proc (pre ++ ':' :: tail) = validate_isolated_proc (pre ++ ':' :: tail2) := by
  induction pre with
  | nil =>
    have h : ∀ t, validate_isolated_proc (':' :: t) = true := by
      intro t
      unfold validate_isolated_proc
      rw [if_neg (by decide), if_pos (by decide)]
    show validate_isolated_proc (':' :: tail) = validate_isolated_proc (':' :: tail2)
    rw [h, h]
  | cons c pre ih =>
    show validate_isolated_proc (c :: (pre ++ ':' :: tail)) =
      validate_isolated_proc (c :: (pre ++ ':' :: tail2))
    unfold validate_isolated_proc
    rw [ih]


/-- C1: for a package other than `ISOLATED_MAGIC`, `validate(pkg, proc)` holds
exactly when every character of `pkg` is alphanumeric, `_` or `.`, `pkg` contains
a `.`, and every character of `proc` is alphanumeric, `_`, `:` or `.`.  In
particular, for a package made of alphanumerics and `.` only, the package check
(and `validate(pkg, pkg)`, the call made for an empty process) succeeds exactly
when a `.` is present. -/
theorem validate_normal_iff (env : Env) (pkg proc : String) (h : pkg ≠ env.ISOLATED_MAGIC) :
    (validate env pkg proc = true ↔
        ((∀ c ∈ pkg.data, isalnum c = true ∨ c = '_' ∨ c = '.') ∧ '.' ∈ pkg.data) ∧
        (∀ c ∈ proc.data, isalnum c = true ∨ c = '_' ∨ c = ':' ∨ c = '.')) ∧
    ((∀ c ∈ pkg.data, isalnum c = true ∨ c = '.') →
        (validate_pkg pkg.data false = true ↔ '.' ∈ pkg.data) ∧
        (validate env pkg pkg = true ↔ '.' ∈ pkg.data)) := by
  have hv : ∀ proc2 : String, validate env pkg proc2 =
      (validate_pkg pkg.data false && validate_proc proc2.data) := by
    intro proc2
    simp [validate, str_eql, h]
  refine ⟨?_, ?_⟩
  · rw [hv, Bool.and_eq_true, validate_pkg_iff, validate_proc_iff]
    simp
  · intro hall
    have hpkg : ∀ c ∈ pkg.data, isalnum c = true ∨ c = '_' ∨ c = '.' := by
      intro c hc
      rcases hall c hc with h1 | h1
      · exact Or.inl h1
      · exact Or.inr (Or.inr h1)
    have hproc : validate_proc pkg.data = true := by
      rw [validate_proc_iff]
      intro c hc
      rcases hall c hc with h1 | h1
      · exact Or.inl h1
      · exact Or.inr (Or.inr (Or.inr h1))
    have h1 : validate_pkg pkg.data false = true ↔ '.' ∈ pkg.data := by
      rw [validate_pkg_iff]
      simp
      intro _
      exact hpkg
    refine ⟨h1, ?_⟩
    rw [hv, hproc, Bool.and_true]
    exact h1

/-- C1 at `pkg = "com.example.app"`, `proc = "com.example.app:remote"`. -/
theorem validate_normal_iff_witness :
    "com.example.app" ≠ Env.android.ISOLATED_MAGIC ∧
    ((validate Env.android "com.example.app" "com.example.app:remote" = true ↔
        ((∀ c ∈ "com.example.app".data, isalnum c = true ∨ c = '_' ∨ c = '.') ∧
          '.' ∈ "com.example.app".data) ∧
        (∀ c ∈ "com.example.app:remote".data,
          isalnum c = true ∨ c = '_' ∨ c = ':' ∨ c = '.')) ∧
    ((∀ c ∈ "com.example.app".data, isalnum c = true ∨ c = '.') →
        (validate_pkg "com.example.app".data false = true ↔ '.' ∈ "com.example.app".data) ∧
        (validate Env.android "com.example.app" "com.example.app" = true ↔
          '.' ∈ "com.example.app".data))) :=
  ⟨by decide,
    validate_normal_iff Env.android "com.example.app" "com.example.app:remote" (by decide)⟩

/-- C2: for the package `ISOLATED_MAGIC`, `validate` holds exactly when every
character of `proc` before the first `:` (every character when there is none)
is alphanumeric, `_` or `.`; nothing is asked of the package, and what follows
the first `:` has no influence on the result. -/
theorem validate_isolated_iff (env : Env) (proc : String) :
    (validate env env.ISOLATED_MAGIC proc = true ↔
      ∀ c ∈ proc.data.takeWhile (fun c => c != ':'),
        isalnum c = true ∨ c = '_' ∨ c = '.') ∧
    (∀ head tail tail2 : List Char,
      validate env env.ISOLATED_MAGIC (String.mk (head ++ ':' :: tail)) =
        validate env env.ISOLATED_MAGIC (String.mk (head ++ ':' :: tail2))) := by
  have hv : ∀ proc2 : String, validate env env.ISOLATED_MAGIC proc2 =
      validate_isolated_proc proc2.data := by
    intro proc2
    simp [validate, str_eql]
  refine ⟨?_, ?_⟩
  · rw [hv, validate_isolated_proc_iff]
  · intro head tail tail2
    rw [hv, hv]
    exact validate_isolated_proc_tail head tail tail2

/-! ### `is_hide_target` on an initialised state -/

theorem init_list_ready (env : Env) (w : World) (s : State) (um : UidMap)
    (h : s.uid_proc_map = some um) : init_list env w s = some (true, s) := by
  simp [init_list, h]

theorem to_size_t_nonneg (x : Int) (h0 : 0 ≤ x) (h1 : x < 2 ^ 31) (n : Nat) :
    n > to_size_t x ↔ x < (n : Int) := by
  unfold to_size_t
  have : x % 2 ^ 64 = x := Int.emod_eq_of_lt h0 (by omega)
  rw [this]
  omega

theorem str_starts_iff (s ss : String) : str_starts s ss = true ↔ ∃ t, s.data = ss.data ++ t := by
  unfold str_starts
  rw [ List.isPrefixOf_iff_prefix]
  constructor
  · rintro ⟨t, ht⟩
    exact ⟨t, ht.symm⟩
  · rintro ⟨t, ht⟩
    exact ⟨t, ht.symm⟩

theorem normal_match_iff (process : String) (max_len : Int) (bucket : List String) :
    normal_match process max_len bucket = true ↔
      ∃ s ∈ bucket, trunc_hit process max_len s = true ∨ s = process := by
  induction bucket with
  | nil => simp [normal_match]
  | cons s bucket ih =>
    unfold normal_match
    by_cases h1 : trunc_hit process max_len s = true
    · have h1' := h1
      unfold trunc_hit at h1'
      rw [if_pos h1']
      simp [h1]
    · have h1' := h1
      unfold trunc_hit at h1'
      rw [if_neg h1']
      by_cases h2 : s = process
      · rw [if_pos h2]
        simp [h2]
      · rw [if_neg h2, ih]
        simp [h1, h2]

theorem isolated_match_iff (process : String) (max_len : Int) (bucket : List String) :
    isolated_match process max_len bucket = true ↔
      ∃ s ∈ bucket, trunc_hit process max_len s = true ∨ str_starts process s = true := by
  induction bucket with
  | nil => simp [isolated_match]
  | cons s bucket ih =>
    unfold isolated_match
    by_cases h1 : trunc_hit process max_len s = true
    · have h1' := h1
      unfold trunc_hit at h1'
      rw [if_pos h1']
      simp [h1]
    · have h1' := h1
      unfold trunc_hit at h1'
      rw [if_neg h1']
      by_cases h2 : str_starts process s = true
      · rw [if_pos h2]
        simp [h2]
      · rw [if_neg h2, ih]
        simp [h1, h2]

theorem is_hide_target_ready (env : Env) (w : World) (s : State) (um : UidMap)
    (uid : Int) (process : String) (max_len : Int) (h : s.uid_proc_map = some um) :
    is_hide_target env w uid process max_len s =
      some (if env.to_app_id uid ≥ 90000 then
              match um.lookup (-1) with
              | none => false
              | some bucket => isolated_match process max_len bucket
            else
              match um.lookup (env.to_app_id uid) with
              | none => false
              | some bucket => normal_match process max_len bucket, s) := by
  unfold is_hide_target
  rw [init_list_ready env w s um h]
  simp only [h]
  split_ifs with h1
  · cases um.lookup (-1) <;> rfl
  · cases um.lookup (env.to_app_id uid) <;> rfl


theorem trunc_hit_iff (process : String) (max_len : Int) (s : String)
    (h0 : 0 ≤ max_len) (h1 : max_len < 2 ^ 31) :
    trunc_hit process max_len s = true ↔
      max_len < (s.length : Int) ∧ max_len < (process.length : Int) ∧
        ∃ t, s.data = process.data ++ t := by
  unfold trunc_hit
  rw [Bool.and_eq_true, Bool.and_eq_true, decide_eq_true_iff, decide_eq_true_iff,
    to_size_t_nonneg max_len h0 h1, to_size_t_nonneg max_len h0 h1, str_starts_iff, and_assoc]

/-- C3: on an initialised state, for a uid whose app ID `a = to_app_id(uid)` is
below 90000 and a `max_len` in `0 .. INT_MAX`, `is_hide_target` leaves the state
alone and returns true exactly when the map has a bucket for `a` holding a name
`n` with `n = p`, or with `len(n) > max_len`, `len(p) > max_len` and `p` an
initial segment of `n`; without a bucket the result is false.  When
`max_len >= len(p)`, or `max_len` is at least the length of every name of the
bucket, the result is true exactly when `p` is a name of the bucket. -/
theorem is_hide_target_normal (env : Env) (w : World) (s : State) (um : UidMap)
    (uid : Int) (p : String) (max_len : Int)
    (hready : s.uid_proc_map = some um) (ha : env.to_app_id uid < 90000)
    (h0 : 0 ≤ max_len) (h1 : max_len < 2 ^ 31) :
    ∃ b, is_hide_target env w uid p max_len s = some (b, s) ∧
      (b = true ↔ ∃ bucket, um.lookup (env.to_app_id uid) = some bucket ∧
        ∃ n ∈ bucket, n = p ∨
          (max_len < (n.length : Int) ∧ max_len < (p.length : Int) ∧
            ∃ t, n.data = p.data ++ t)) ∧
      (um.lookup (env.to_app_id uid) = none → b = false) ∧
      (((p.length : Int) ≤ max_len ∨
          ∀ bucket, um.lookup (env.to_app_id uid) = some bucket →
            ∀ n ∈ bucket, (n.length : Int) ≤ max_len) →
        (b = true ↔ ∃ bucket, um.lookup (env.to_app_id uid) = some bucket ∧ p ∈ bucket)) := by
  have hna : ¬ env.to_app_id uid ≥ 90000 := by omega
  rw [is_hide_target_ready env w s um uid p max_len hready, if_neg hna]
  cases hb : um.lookup (env.to_app_id uid) with
  | none => exact ⟨false, rfl, by simp, fun _ => rfl, by simp⟩
  | some bucket =>
    refine ⟨normal_match p max_len bucket, rfl, ?_, by simp, ?_⟩
    · rw [normal_match_iff]
      constructor
      · rintro ⟨n, hn, h | h⟩
        · exact ⟨bucket, rfl, n, hn, Or.inr ((trunc_hit_iff p max_len n h0 h1).1 h)⟩
        · exact ⟨bucket, rfl, n, hn, Or.inl h⟩
      · rintro ⟨b2, hb2, n, hn, h | h⟩
        · cases hb2
          exact ⟨n, hn, Or.inr h⟩
        · cases hb2
          exact ⟨n, hn, Or.inl ((trunc_hit_iff p max_len n h0 h1).2 h)⟩
    · intro hlen
      rw [normal_match_iff]
      constructor
      · rintro ⟨n, hn, h | h⟩
        · rw [trunc_hit_iff p max_len n h0 h1] at h
          rcases hlen with hl | hl
          · omega
          · have := hl bucket rfl n hn
            omega
        · exact ⟨bucket, rfl, h ▸ hn⟩
      · rintro ⟨b2, hb2, hp⟩
        cases hb2
        exact ⟨p, hp, Or.inr rfl⟩

/-- C3 at uid 1010123 (app ID 10123), `p = "com.example.app"`, `max_len = 255`. -/
theorem is_hide_target_normal_witness :
    (State.ready [] [(10123, ["com.example.app"])]).uid_proc_map =
        some [(10123, ["com.example.app"])] ∧
      Env.android.to_app_id 1010123 < 90000 ∧ (0 : Int) ≤ 255 ∧ (255 : Int) < 2 ^ 31 ∧
      is_hide_target Env.android World.quiet 1010123 "com.example.app" 255
        (State.ready [] [(10123, ["com.example.app"])]) =
        some (true, State.ready [] [(10123, ["com.example.app"])]) := by
  refine ⟨rfl, by decide, by decide, by decide, ?_⟩
  obtain ⟨b, hb, hiff, -, -⟩ := is_hide_target_normal Env.android World.quiet
    (State.ready [] [(10123, ["com.example.app"])]) [(10123, ["com.example.app"])]
    1010123 "com.example.app" 255 rfl (by decide) (by decide) (by decide)
  have : b = true := hiff.2 ⟨["com.example.app"], by decide, "com.example.app", by simp, Or.inl rfl⟩
  rw [hb, this]

/-! ### The app-ID map built by `update_uid_map` -/

theorem lookup_cons_eq {K V : Type} [DecidableEq K] (k a : K) (b : V) (l : List (K × V)) :
    List.lookup k ((a, b) :: l) = if k = a then some b else List.lookup k l := by
  rw [List.lookup_cons]
  by_cases h : k = a
  · have hb : (k == a) = true := by simpa using h
    rw [hb, if_pos h]
  · have hb : (k == a) = false := by simpa using h
    rw [hb, if_neg h]

theorem lookup_orderedInsert {K V : Type} [DecidableEq K] (r : K × V → K × V → Prop)
    [DecidableRel r] (k : K) (v : V) (l : List (K × V)) (k2 : K)
    (hk : List.lookup k l = none) :
    List.lookup k2 (List.orderedInsert r (k, v) l) =
      if k2 = k then some v else List.lookup k2 l := by
  induction l with
  | nil => simp [lookup_cons_eq]
  | cons e l ih =>
    obtain ⟨a, b⟩ := e
    rw [lookup_cons_eq] at hk
    by_cases hka : k = a
    · simp [hka] at hk
    · rw [if_neg hka] at hk
      rw [List.orderedInsert]
      by_cases h1 : r (k, v) (a, b)
      · rw [if_pos h1, lookup_cons_eq]
      · rw [if_neg h1, lookup_cons_eq, ih hk, lookup_cons_eq]
        by_cases h2 : k2 = k
        · have h3 : ¬ k2 = a := by rw [h2]; exact hka
          simp [h2, hka]
        · simp [h2]

theorem lookup_map_update {K V : Type} [DecidableEq K] (f : V → V) (k : K) (l : List (K × V))
    (k2 : K) :
    List.lookup k2 (l.map (fun e => if e.1 = k then (e.1, f e.2) else e)) =
      if k2 = k then (List.lookup k2 l).map f else List.lookup k2 l := by
  induction l with
  | nil => simp
  | cons e l ih =>
    obtain ⟨a, b⟩ := e
    rw [List.map_cons]
    by_cases hak : a = k
    · simp only [hak, if_true, lookup_cons_eq, ih]
      by_cases h2 : k2 = k
      · simp [h2]
      · simp [h2]
    · simp only [hak, if_false, lookup_cons_eq, ih]
      by_cases h2 : k2 = k
      · have h3 : ¬ k = a := fun h => hak h.symm
        subst h2
        simp [h3]
      · simp [h2]

theorem lookup_uid_map_emplace_back (um : UidMap) (app_id : Int) (proc : String) (k : Int) :
    (uid_map_emplace_back um app_id proc).lookup k =
      if k = app_id then some ((um.lookup app_id).getD [] ++ [proc]) else um.lookup k := by
  unfold uid_map_emplace_back
  cases h : um.lookup app_id with
  | none =>
    simp only []
    rw [lookup_orderedInsert _ _ _ _ _ h]
    simp
  | some b =>
    simp only []
    rw [lookup_map_update (fun v => v ++ [proc])]
    by_cases hk : k = app_id
    · simp [hk, h]
    · simp [hk]

theorem lookup_emplace_procs (app_id : Int) (procs : List String) (um : UidMap) (k : Int) :
    (emplace_procs app_id procs um).lookup k =
      if k = app_id ∧ procs ≠ [] then some ((um.lookup app_id).getD [] ++ procs)
      else um.lookup k := by
  induction procs generalizing um with
  | nil => simp [emplace_procs]
  | cons proc procs ih =>
    rw [emplace_procs, ih, lookup_uid_map_emplace_back, lookup_uid_map_emplace_back]
    by_cases hk : k = app_id
    · subst hk
      by_cases hp : procs = []
      · simp [hp]
      · simp [hp]
    · simp [hk]


theorem lookup_fill_uid_map (env : Env) (w : World) (users : List String) (hm : HideMap)
    (um : UidMap) (k : Int) :
    (fill_uid_map env w users hm um).lookup k =
      if names_under env w users k hm = [] then um.lookup k
      else some ((um.lookup k).getD [] ++ names_under env w users k hm) := by
  induction hm generalizing um with
  | nil => simp [fill_uid_map, names_under]
  | cons e rest ih =>
    obtain ⟨pkg, procs⟩ := e
    unfold fill_uid_map names_under resolve_app_id
    by_cases hp : pkg ≠ env.ISOLATED_MAGIC
    · simp only [if_pos hp]
      by_cases hneg : find_app_id env w pkg users < 0
      · simp only [if_pos hneg]
        rw [ih]
        simp
      · simp only [if_neg hneg]
        rw [ih, lookup_emplace_procs]
        by_cases hk : k = find_app_id env w pkg users
        · subst hk
          by_cases hpr : procs = []
          · simp [hpr]
          · by_cases hr : names_under env w users (find_app_id env w pkg users) rest = []
            · simp [hpr, hr]
            · simp [hpr, hr]
        · have hk2 : ¬ find_app_id env w pkg users = k := fun h => hk h.symm
          simp [hk, hk2]
    · simp only [if_neg hp]
      rw [ih, lookup_emplace_procs]
      by_cases hk : k = -1
      · subst hk
        by_cases hpr : procs = []
        · simp [hpr]
        · by_cases hr : names_under env w users (-1) rest = []
          · simp [hpr, hr]
          · simp [hpr, hr]
      · have hk2 : ¬ (-1 : Int) = k := fun h => hk h.symm
        simp [hk, hk2]

theorem mem_names_under (env : Env) (w : World) (users : List String) (k : Int)
    (hm : HideMap) (x : String) :
    x ∈ names_under env w users k hm ↔
      ∃ e ∈ hm, resolve_app_id env w users e.1 = some k ∧ x ∈ e.2 := by
  induction hm with
  | nil => simp [names_under]
  | cons e rest ih =>
    obtain ⟨pkg, procs⟩ := e
    unfold names_under
    rw [List.mem_append, ih]
    by_cases hr : resolve_app_id env w users pkg = some k
    · simp [hr]
    · simp [hr]

/-! ### Frame lemmas -/

theorem kill_process_fn_eq (name : String) (multi : Bool) (filter : Int → String → Bool)
    (pid : Int) (s : State) :
    kill_process_fn name multi filter pid s =
      if filter pid name = true then
        (multi, { s with trace := s.trace ++ [Event.probe pid, Event.kill pid] })
      else (true, { s with trace := s.trace ++ [Event.probe pid] }) := by
  unfold kill_process_fn
  by_cases hf : filter pid name = true
  · simp [hf]
  · simp [hf]

theorem crawl_kill_process_fn (env : Env) (name : String) (multi : Bool)
    (filter : Int → String → Bool) (dir : List String) (s : State) :
    crawl_procfs_dir env (kill_process_fn name multi filter) dir s =
      { s with trace := s.trace ++ scan_trace env name multi filter dir } := by
  induction dir generalizing s with
  | nil => simp [crawl_procfs_dir, scan_trace]
  | cons dp dir ih =>
    rw [crawl_procfs_dir, scan_trace]
    by_cases hpid : env.parse_int dp > 0
    · rw [if_pos hpid, if_pos hpid, kill_process_fn_eq]
      by_cases hf : filter (env.parse_int dp) name = true
      · rw [if_pos hf, if_pos hf]
        cases multi with
        | false => simp
        | true =>
          simp only [ih]
          simp
      · rw [if_neg hf, if_neg hf]
        simp only [ih]
        simp
    · rw [if_neg hpid, if_neg hpid]
      exact ih s

theorem kill_process_eq (env : Env) (w : World) (name : String) (multi : Bool)
    (filter : Int → String → Bool) (s : State) :
    kill_process env w name multi filter s =
      if s.procfp then
        some { s with trace := s.trace ++ scan_trace env name multi filter w.proc_entries }
      else none := by
  unfold kill_process crawl_procfs
  rw [crawl_kill_process_fn]

theorem add_hide_set_spec (env : Env) (w : World) (pkg proc : String) (s t : State) (b : Bool)
    (h : add_hide_set env w pkg proc s = some (b, t)) :
    ∃ hm evs, s.hide_map_ = some hm ∧ b = (hide_map_emplace hm pkg proc).2 ∧
      t = { s with hide_map_ := some (hide_map_emplace hm pkg proc).1,
                   trace := s.trace ++ evs } ∧
      (b = false → evs = []) := by
  unfold add_hide_set at h
  cases hhm : s.hide_map_ with
  | none => simp [hhm] at h
  | some hm =>
    simp only [hhm] at h
    refine ⟨hm, ?_⟩
    by_cases h2 : (hide_map_emplace hm pkg proc).2 = true
    · simp only [h2, Bool.not_true, Bool.false_eq_true, if_false] at h
      by_cases hk : do_kill env { s with hide_map_ := some (hide_map_emplace hm pkg proc).1 } = true
      · simp only [hk, Bool.not_true, Bool.false_eq_true, if_false, kill_process_eq] at h
        by_cases hp : s.procfp = true
        · simp only [hp, if_true, Option.map_some'] at h
          split_ifs at h
          · cases h
            exact ⟨scan_trace env proc true (proc_name_match str_starts w) w.proc_entries,
              rfl, h2.symm, by simp [hp], by simp [h2]⟩
          · cases h
            exact ⟨scan_trace env proc false (proc_name_match str_eql w) w.proc_entries,
              rfl, h2.symm, by simp [hp], by simp [h2]⟩
        · simp [hp] at h
      · simp only [hk, Bool.not_false, if_true] at h
        cases h
        exact ⟨[], rfl, h2.symm, by simp, by simp⟩
    · have h2f : (hide_map_emplace hm pkg proc).2 = false := by simpa using h2
      simp only [h2f, Bool.not_false, if_true] at h
      cases h
      exact ⟨[], rfl, h2f.symm, by simp, by simp⟩

theorem update_uid_map_spec (env : Env) (w : World) (s t : State)
    (h : update_uid_map env w s = some t) :
    (do_kill env s = false ∧ t = s) ∨
    (do_kill env s = true ∧ s.uid_proc_map.isSome = true ∧ w.users = none ∧
      t = { s with uid_proc_map := some [] }) ∨
    (do_kill env s = true ∧ s.uid_proc_map.isSome = true ∧
      ∃ users hm, w.users = some users ∧ s.hide_map_ = some hm ∧
        t = { s with uid_proc_map := some (fill_uid_map env w users hm []) }) := by
  unfold update_uid_map at h
  by_cases hk : do_kill env s = true
  · simp only [hk, Bool.not_true, Bool.false_eq_true, if_false] at h
    cases hu : s.uid_proc_map with
    | none => simp [hu] at h
    | some um0 =>
      simp only [hu] at h
      cases hus : w.users with
      | none =>
        simp only [hus] at h
        cases h
        exact Or.inr (Or.inl ⟨hk, rfl, rfl, rfl⟩)
      | some users =>
        simp only [hus] at h
        cases hhm : s.hide_map_ with
        | none => simp [hhm] at h
        | some hm =>
          simp only [hhm] at h
          cases h
          exact Or.inr (Or.inr ⟨hk, rfl, users, hm, rfl, rfl, rfl⟩)
  · have hk2 : do_kill env s = false := by simpa using hk
    simp only [hk2, Bool.not_false, if_true] at h
    cases h
    exact Or.inl ⟨hk2, rfl⟩

/-! ### The trace of one scan -/

theorem scan_pids_cons_pos (env : Env) (dp : String) (dir : List String)
    (h : env.parse_int dp > 0) :
    scan_pids env (dp :: dir) = env.parse_int dp :: scan_pids env dir := by
  unfold scan_pids
  rw [List.map_cons, List.filter_cons, if_pos (by simpa using h)]

theorem scan_pids_cons_neg (env : Env) (dp : String) (dir : List String)
    (h : ¬ env.parse_int dp > 0) :
    scan_pids env (dp :: dir) = scan_pids env dir := by
  unfold scan_pids
  rw [List.map_cons, List.filter_cons, if_neg (by simpa using h)]

theorem scan_trace_multi (env : Env) (name : String) (filter : Int → String → Bool)
    (dir : List String) :
    scan_trace env name true filter dir =
      (scan_pids env dir).flatMap (fun pid =>
        if filter pid name = true then [Event.probe pid, Event.kill pid]
        else [Event.probe pid]) := by
  induction dir with
  | nil => rfl
  | cons dp dir ih =>
    rw [scan_trace]
    by_cases hpid : env.parse_int dp > 0
    · rw [if_pos hpid, scan_pids_cons_pos env dp dir hpid, List.flatMap_cons, ← ih]
      by_cases hf : filter (env.parse_int dp) name = true
      · simp [hf]
      · simp [hf]
    · rw [if_neg hpid, scan_pids_cons_neg env dp dir hpid, ih]

theorem scan_trace_no_match (env : Env) (name : String) (multi : Bool)
    (filter : Int → String → Bool) (dir : List String)
    (h : ∀ dp ∈ dir, env.parse_int dp > 0 → filter (env.parse_int dp) name = false) :
    scan_trace env name multi filter dir = (scan_pids env dir).map Event.probe := by
  induction dir with
  | nil => rfl
  | cons dp dir ih =>
    have ih2 := ih (fun d hd => h d (List.mem_cons_of_mem _ hd))
    rw [scan_trace]
    by_cases hpid : env.parse_int dp > 0
    · have hf := h dp (List.mem_cons_self _ _) hpid
      rw [if_pos hpid, scan_pids_cons_pos env dp dir hpid, List.map_cons, ← ih2]
      simp [hf]
    · rw [if_neg hpid, scan_pids_cons_neg env dp dir hpid, ih2]

theorem scan_trace_first_match (env : Env) (name : String) (filter : Int → String → Bool)
    (head : List String) (dp : String) (tail : List String)
    (hpid : env.parse_int dp > 0) (hf : filter (env.parse_int dp) name = true)
    (h : ∀ d ∈ head, env.parse_int d > 0 → filter (env.parse_int d) name = false) :
    scan_trace env name false filter (head ++ dp :: tail) =
      (scan_pids env head).map Event.probe
        ++ [Event.probe (env.parse_int dp), Event.kill (env.parse_int dp)] := by
  induction head with
  | nil =>
    rw [List.nil_append, scan_trace, if_pos hpid, if_pos hf]
    simp [scan_pids]
  | cons d head ih =>
    have ih2 := ih (fun x hx => h x (List.mem_cons_of_mem _ hx))
    rw [List.cons_append, scan_trace]
    by_cases hd : env.parse_int d > 0
    · have hfd := h d (List.mem_cons_self _ _) hd
      rw [if_pos hd, ih2, scan_pids_cons_pos env d head hd]
      simp [hfd]
    · rw [if_neg hd, ih2, scan_pids_cons_neg env d head hd]

theorem mem_scan_trace (env : Env) (name : String) (multi : Bool)
    (filter : Int → String → Bool) (dir : List String) (ev : Event)
    (h : ev ∈ scan_trace env name multi filter dir) :
    ∃ dp ∈ dir, env.parse_int dp > 0 ∧
      (ev = Event.probe (env.parse_int dp) ∨
        (ev = Event.kill (env.parse_int dp) ∧ filter (env.parse_int dp) name = true)) := by
  induction dir with
  | nil => simp [scan_trace] at h
  | cons dp dir ih =>
    have lift : (∃ d ∈ dir, env.parse_int d > 0 ∧
        (ev = Event.probe (env.parse_int d) ∨
          (ev = Event.kill (env.parse_int d) ∧ filter (env.parse_int d) name = true))) →
        ∃ d ∈ dp :: dir, env.parse_int d > 0 ∧
        (ev = Event.probe (env.parse_int d) ∨
          (ev = Event.kill (env.parse_int d) ∧ filter (env.parse_int d) name = true)) := by
      rintro ⟨d, hd, hrest⟩
      exact ⟨d, List.mem_cons_of_mem _ hd, hrest⟩
    rw [scan_trace] at h
    by_cases hpid : env.parse_int dp > 0
    · rw [if_pos hpid] at h
      by_cases hf : filter (env.parse_int dp) name = true
      · rw [if_pos hf] at h
        rcases List.mem_append.1 h with h1 | h1
        · rcases List.mem_cons.1 h1 with h2 | h2
          · exact ⟨dp, List.mem_cons_self _ _, hpid, Or.inl h2⟩
          · rcases List.mem_cons.1 h2 with h3 | h3
            · exact ⟨dp, List.mem_cons_self _ _, hpid, Or.inr ⟨h3, hf⟩⟩
            · cases h3
        · cases multi with
          | false => simp at h1
          | true => exact lift (ih (by simpa using h1))
      · rw [if_neg hf] at h
        rcases List.mem_cons.1 h with h1 | h1
        · exact ⟨dp, List.mem_cons_self _ _, hpid, Or.inl h1⟩
        · exact lift (ih h1)
    · rw [if_neg hpid] at h
      exact lift (ih h)

/-! ### `kill_process` -/

/-- C8: with `procfp` open, `kill_process` appends to the trace: with
`multi = true`, one probe for every positive PID of the table in enumeration
order, each followed by a kill exactly when the filter matches it; with
`multi = false` and no match, one probe per positive PID and no kill; with
`multi = false` and a first matching positive-PID entry `dp`, the probes of the
positive PIDs before it, then the probe and the kill of `dp`, and nothing for
the entries after it.  In every case each probe or kill is for the positive
`parse_int` value of an entry, so entries without one reach neither the filter
nor `kill`. -/
theorem kill_process_trace (env : Env) (w : World) (name : String)
    (filter : Int → String → Bool) (s : State) (hp : s.procfp = true) :
    kill_process env w name true filter s =
        some { s with trace := s.trace ++ (scan_pids env w.proc_entries).flatMap (fun pid =>
          if filter pid name = true then [Event.probe pid, Event.kill pid]
          else [Event.probe pid]) } ∧
    ((∀ dp ∈ w.proc_entries, env.parse_int dp > 0 → filter (env.parse_int dp) name = false) →
      kill_process env w name false filter s =
        some { s with trace := s.trace ++ (scan_pids env w.proc_entries).map Event.probe }) ∧
    (∀ head dp tail, w.proc_entries = head ++ dp :: tail → env.parse_int dp > 0 →
      filter (env.parse_int dp) name = true →
      (∀ d ∈ head, env.parse_int d > 0 → filter (env.parse_int d) name = false) →
      kill_process env w name false filter s =
        some { s with trace := s.trace ++ ((scan_pids env head).map Event.probe
          ++ [Event.probe (env.parse_int dp), Event.kill (env.parse_int dp)]) }) ∧
    (∀ multi, ∃ evs, kill_process env w name multi filter s =
        some { s with trace := s.trace ++ evs } ∧
      ∀ ev ∈ evs, ∃ dp ∈ w.proc_entries, env.parse_int dp > 0 ∧
        (ev = Event.probe (env.parse_int dp) ∨ ev = Event.kill (env.parse_int dp))) := by
  refine ⟨?_, ?_, ?_, ?_⟩
  · rw [kill_process_eq, if_pos hp, scan_trace_multi]
  · intro h
    rw [kill_process_eq, if_pos hp, scan_trace_no_match env name false filter _ h]
  · intro head dp tail hdir hpid hf hhead
    rw [kill_process_eq, if_pos hp, hdir,
      scan_trace_first_match env name filter head dp tail hpid hf hhead]
  · intro multi
    refine ⟨scan_trace env name multi filter w.proc_entries, ?_, ?_⟩
    · rw [kill_process_eq, if_pos hp]
    · intro ev hev
      obtain ⟨dp, hdp, hpid, h1 | h1⟩ := mem_scan_trace env name multi filter _ ev hev
      · exact ⟨dp, hdp, hpid, Or.inl h1⟩
      · exact ⟨dp, hdp, hpid, Or.inr h1.1⟩

/-- C8 on the sample process table: the exact-match scan for `com.example.app`
probes PID 1 and PID 42, kills PID 42 and goes no further. -/
theorem kill_process_trace_witness :
    (State.ready [] []).procfp = true ∧
    kill_process Env.android World.sample "com.example.app" false
        (proc_name_match str_eql World.sample) (State.ready [] []) =
      some { State.ready [] [] with
        trace := [Event.probe 1, Event.probe 42, Event.kill 42] } :=
  ⟨rfl, ((kill_process_trace Env.android World.sample "com.example.app"
    (proc_name_match str_eql World.sample) (State.ready [] []) rfl).2.2.1
      [".", "..", "1", "self"] "42" ["77", "90"] rfl (by decide) (by decide)
      (by decide)).trans (by decide)⟩

/-- C7: a scan with the `str_ends_safe` discipline never kills a process whose
command line is exactly `webview_zygote`; on any other command line the
discipline matches exactly when the command line ends with the pattern; and
`webview_zygote` is not matched by `_zygote` although it ends with it. -/
theorem str_ends_safe_never_webview (env : Env) (w : World) (name : String) (multi : Bool)
    (s t : State)
    (h : kill_process env w name multi (proc_name_match str_ends_safe w) s = some t) :
    (∃ evs, t.trace = s.trace ++ evs ∧
      ∀ pid, Event.kill pid ∈ evs → cmdline_buf w pid ≠ some "webview_zygote") ∧
    (∀ pid buf, cmdline_buf w pid = some buf → buf ≠ "webview_zygote" →
      proc_name_match str_ends_safe w pid name = str_ends buf name) ∧
    (∀ ident pattern, ident ≠ "webview_zygote" →
      str_ends_safe ident pattern = str_ends ident pattern) ∧
    (∀ pattern, str_ends_safe "webview_zygote" pattern = false) ∧
    str_ends "webview_zygote" "_zygote" = true ∧
    str_ends_safe "webview_zygote" "_zygote" = false := by
  refine ⟨?_, ?_, ?_, ?_, by decide, by decide⟩
  · rw [kill_process_eq] at h
    by_cases hp : s.procfp = true
    · rw [if_pos hp] at h
      cases h
      refine ⟨_, rfl, ?_⟩
      intro pid hpid hbuf
      obtain ⟨dp, -, -, h1 | h1⟩ := mem_scan_trace env name multi _ _ _ hpid
      · cases h1
      · obtain ⟨h2, h3⟩ := h1
        cases h2
        simp [proc_name_match, hbuf, str_ends_safe] at h3
    · rw [if_neg hp] at h
      cases h
  · intro pid buf hbuf hne
    simp [proc_name_match, hbuf, str_ends_safe, hne]
  · intro ident pattern hne
    simp [str_ends_safe, hne]
  · intro pattern
    simp [str_ends_safe]

/-- C7 on the sample process table: the `_zygote` scan kills PID 90
(`com.android.chrome_zygote`) and leaves PID 77 (`webview_zygote`) alone. -/
theorem str_ends_safe_never_webview_witness :
    kill_process Env.android World.sample "_zygote" true
        (proc_name_match str_ends_safe World.sample) (State.ready [] []) =
      some { State.ready [] [] with
        trace := [Event.probe 1, Event.probe 42, Event.probe 77, Event.probe 90,
          Event.kill 90] } ∧
    cmdline_buf World.sample 77 = some "webview_zygote" ∧
    ∃ evs, ({ State.ready [] [] with
        trace := [Event.probe 1, Event.probe 42, Event.probe 77, Event.probe 90,
          Event.kill 90] } : State).trace = (State.ready [] []).trace ++ evs ∧
      ∀ pid, Event.kill pid ∈ evs → cmdline_buf World.sample pid ≠ some "webview_zygote" :=
  ⟨by decide, by decide,
    (str_ends_safe_never_webview Env.android World.sample "_zygote" true (State.ready [] [])
      _ (by decide)).1⟩


/-! ### `add_list` on invalid input -/

/-- C10: when the pair fails `validate` after an empty process has been replaced
by the package name, `add_list` returns `HIDE_INVALID_PKG` and the state is the
one it started from: hide list, app-ID map, their null-or-allocated status,
the rows of the durable store and the trace of probes and kills are untouched. -/
theorem add_list_invalid (env : Env) (w : World) (pkg proc : String) (s : State)
    (h : validate env pkg (if proc = "" then pkg else proc) = false) :
    add_list env w pkg proc s = some (Status.HIDE_INVALID_PKG, s) := by
  unfold add_list
  simp [h]

/-- C10 at the package `nodots` with an empty process, on the boot state. -/
theorem add_list_invalid_witness :
    validate Env.android "nodots" (if ("" : String) = "" then "nodots" else "") = false ∧
    add_list Env.android World.sample "nodots" "" (State.boot [] none) =
      some (Status.HIDE_INVALID_PKG, State.boot [] none) :=
  ⟨by decide, add_list_invalid Env.android World.sample "nodots" "" (State.boot [] none)
    (by decide)⟩

/-! ### The truncation rule -/

theorem trunc_hit_of_initial_segment (process s : String) (max_len : Int)
    (h0 : 0 ≤ max_len) (h1 : max_len < 2 ^ 31)
    (hs : max_len < (s.length : Int)) (hp : max_len < (process.length : Int))
    (hseg : ∃ t, s.data = process.data ++ t) : trunc_hit process max_len s = true :=
  (trunc_hit_iff process max_len s h0 h1).2 ⟨hs, hp, hseg⟩

/-- C5 (amended): on an initialised state, when the bucket consulted for `uid`
(the bucket of `to_app_id(uid)` below 90000, the `-1` bucket otherwise) holds a
registered name of length 20, every observed process name longer than
`max_len = 10` that is an initial segment of the registered name is a hide
target for `max_len = 10`. -/
theorem truncation_rule (env : Env) (w : World) (s : State) (um : UidMap) (uid : Int)
    (bucket : List String) (name p : String)
    (hready : s.uid_proc_map = some um)
    (hb : um.lookup (if env.to_app_id uid ≥ 90000 then -1 else env.to_app_id uid) = some bucket)
    (hn : name ∈ bucket) (hlen : name.length = 20) (hp : 10 < p.length)
    (hseg : ∃ t, name.data = p.data ++ t) :
    is_hide_target env w uid p 10 s = some (true, s) := by
  have hhit : trunc_hit p 10 name = true :=
    trunc_hit_of_initial_segment p name 10 (by decide) (by decide)
      (by rw [hlen]; decide) (by exact_mod_cast hp) hseg
  rw [is_hide_target_ready env w s um uid p 10 hready]
  by_cases ha : env.to_app_id uid ≥ 90000
  · rw [if_pos ha] at hb
    rw [if_pos ha, hb]
    have : isolated_match p 10 bucket = true :=
      (isolated_match_iff p 10 bucket).2 ⟨name, hn, Or.inl hhit⟩
    simp [this]
  · rw [if_neg ha] at hb
    rw [if_neg ha, hb]
    have : normal_match p 10 bucket = true :=
      (normal_match_iff p 10 bucket).2 ⟨name, hn, Or.inl hhit⟩
    simp [this]

/-- C5 (amended) at the registered name `com.example.longname` under app ID
10123 and the observed name `com.example.l`. -/
theorem truncation_rule_witness :
    (State.ready [] [(10123, ["com.example.longname"])]).uid_proc_map =
      some [(10123, ["com.example.longname"])] ∧
    List.lookup (if Env.android.to_app_id 10123 ≥ 90000 then -1
        else Env.android.to_app_id 10123) [((10123 : Int), ["com.example.longname"])] =
      some ["com.example.longname"] ∧
    "com.example.longname" ∈ ["com.example.longname"] ∧
    "com.example.longname".length = 20 ∧ 10 < "com.example.l".length ∧
    (∃ t, "com.example.longname".data = "com.example.l".data ++ t) ∧
    is_hide_target Env.android World.sample 10123 "com.example.l" 10
        (State.ready [] [(10123, ["com.example.longname"])]) =
      some (true, State.ready [] [(10123, ["com.example.longname"])]) :=
  ⟨rfl, by decide, by decide, by decide, by decide, ⟨"ongname".data, by decide⟩,
    truncation_rule Env.android World.sample _ [(10123, ["com.example.longname"])] 10123
      ["com.example.longname"] "com.example.longname" "com.example.l" rfl (by decide)
      (by decide) (by decide) (by decide) ⟨"ongname".data, by decide⟩⟩

/-- C5 as stated fails: the registered name `com.example.longname` has length
20, the observed name `com.example.longname:core` has length 25 and the same
first 10 characters, yet `is_hide_target` with `max_len = 10` returns false,
both on a state holding the name under app ID 10123 and on the state reached
from boot by `launch_magiskhide` and `add_list("com.example.longname", "")`,
which holds the name under app ID 0. -/
theorem truncation_rule_counterexample :
    "com.example.longname".length = 20 ∧ "com.example.longname:core".length = 25 ∧
    "com.example.longname:core".data.take 10 = "com.example.longname".data.take 10 ∧
    is_hide_target Env.android World.sample 10123 "com.example.longname:core" 10
        (State.ready [("com.example.longname", ["com.example.longname"])]
          [(10123, ["com.example.longname"])]) =
      some (false, State.ready [("com.example.longname", ["com.example.longname"])]
          [(10123, ["com.example.longname"])]) ∧
    ∃ st, run Env.android World.sample [Op.launch, Op.add "com.example.longname" ""]
        (State.boot [] none) = some st ∧
      st.uid_proc_map =
        some [(0, ["com.example.longname", "com.google.android.gms.unstable"])] ∧
      is_hide_target Env.android World.sample 0 "com.example.longname:core" 10 st =
        some (false, st) := by
  refine ⟨by decide, by decide, by decide, by decide, ?_⟩
  exact ⟨_, rfl, by decide, by decide⟩

/-! ### Effect of each operation on the globals -/

theorem same_but_hide_map_refl (s : State) : same_but_hide_map s s :=
  ⟨rfl, rfl, rfl, rfl, rfl, rfl⟩

theorem same_but_hide_map_trans (s t u : State) (h1 : same_but_hide_map s t)
    (h2 : same_but_hide_map t u) : same_but_hide_map s u := by
  unfold same_but_hide_map at *
  refine ⟨?_, ?_, ?_, ?_, ?_, ?_⟩
  · rw [h2.1, h1.1]
  · rw [h2.2.1, h1.2.1]
  · rw [h2.2.2.1, h1.2.2.1]
  · rw [h2.2.2.2.1, h1.2.2.2.1]
  · rw [h2.2.2.2.2.1, h1.2.2.2.2.1]
  · rw [h2.2.2.2.2.2, h1.2.2.2.2.2]

theorem kill_process_frame (env : Env) (w : World) (name : String) (multi : Bool)
    (filter : Int → String → Bool) (s t : State)
    (h : kill_process env w name multi filter s = some t) :
    same_but_hide_map s t ∧ t.hide_map_ = s.hide_map_ := by
  rw [kill_process_eq] at h
  by_cases hp : s.procfp = true
  · rw [if_pos hp] at h
    cases h
    exact ⟨⟨rfl, rfl, rfl, rfl, rfl, rfl⟩, rfl⟩
  · rw [if_neg hp] at h
    cases h

theorem add_hide_set_frame (env : Env) (w : World) (pkg proc : String) (s t : State) (b : Bool)
    (h : add_hide_set env w pkg proc s = some (b, t)) :
    same_but_hide_map s t ∧ t.hide_map_.isSome = true := by
  obtain ⟨hm, evs, -, -, ht, -⟩ := add_hide_set_spec env w pkg proc s t b h
  subst ht
  exact ⟨⟨rfl, rfl, rfl, rfl, rfl, rfl⟩, rfl⟩

theorem load_rows_frame (env : Env) (w : World) (rows : List (String × String)) (s t : State)
    (h : load_rows env w rows s = some t) :
    same_but_hide_map s t ∧ (s.hide_map_.isSome = true → t.hide_map_.isSome = true) := by
  induction rows generalizing s with
  | nil =>
    rw [load_rows] at h
    cases h
    exact ⟨same_but_hide_map_refl _, id⟩
  | cons row rows ih =>
    rw [load_rows] at h
    cases h1 : add_hide_set env w row.1 row.2 s with
    | none => simp [h1] at h
    | some r =>
      obtain ⟨b, s1⟩ := r
      simp only [h1] at h
      obtain ⟨f1, f2⟩ := add_hide_set_frame env w row.1 row.2 s s1 b h1
      obtain ⟨g1, g2⟩ := ih s1 h
      exact ⟨same_but_hide_map_trans s s1 t f1 g1, fun _ => g2 f2⟩

theorem uid_map_built_none (env : Env) : uid_map_built env none := by
  intro um h
  cases h

theorem uid_map_built_nil (env : Env) : uid_map_built env (some []) := by
  intro um h
  cases h
  exact ⟨World.quiet, [], [], rfl⟩

theorem uid_map_built_fill (env : Env) (w : World) (users : List String) (hm : HideMap) :
    uid_map_built env (some (fill_uid_map env w users hm [])) := by
  intro um h
  cases h
  exact ⟨w, users, hm, rfl⟩

theorem update_uid_map_frame (env : Env) (w : World) (s t : State)
    (h : update_uid_map env w s = some t) :
    t.hide_map_ = s.hide_map_ ∧ t.inotify_fd = s.inotify_fd ∧
    t.hide_enabled = s.hide_enabled ∧ t.procfp = s.procfp ∧
    t.db_hidelist = s.db_hidelist ∧ t.db_hide_config = s.db_hide_config ∧
    t.trace = s.trace ∧
    (s.uid_proc_map.isSome = true → t.uid_proc_map.isSome = true) ∧
    (t.uid_proc_map = s.uid_proc_map ∨ uid_map_built env t.uid_proc_map) := by
  rcases update_uid_map_spec env w s t h with ⟨-, ht⟩ | ⟨-, -, -, ht⟩ | ⟨-, -, users, hm, -, -, ht⟩
  · subst ht
    exact ⟨rfl, rfl, rfl, rfl, rfl, rfl, rfl, id, Or.inl rfl⟩
  · subst ht
    exact ⟨rfl, rfl, rfl, rfl, rfl, rfl, rfl, fun _ => rfl, Or.inr (uid_map_built_nil env)⟩
  · subst ht
    exact ⟨rfl, rfl, rfl, rfl, rfl, rfl, rfl, fun _ => rfl,
      Or.inr (uid_map_built_fill env w users hm)⟩

theorem init_list_spec (env : Env) (w : World) (s t : State) (b : Bool)
    (h : init_list env w s = some (b, t)) :
    (s.uid_proc_map.isSome = true ∧ b = true ∧ t = s) ∨
    (s.uid_proc_map = none ∧
      ∃ s2, load_rows env w (db_select_rows w s) { s with hide_map_ := some [] } = some s2 ∧
        ((w.db_select_error.isSome = true ∧ b = false ∧ t = s2) ∨
         (w.db_select_error = none ∧
          ∃ s4, update_uid_map env w { s2 with uid_proc_map := some [] } = some s4 ∧
            t = { s4 with inotify_fd := w.inotify_init1 } ∧
            b = decide (¬ w.inotify_init1 < 0)))) := by
  unfold init_list at h
  by_cases hu : s.uid_proc_map.isSome = true
  · rw [if_pos hu] at h
    cases h
    exact Or.inl ⟨hu, rfl, rfl⟩
  · rw [if_neg hu] at h
    have hnone : s.uid_proc_map = none := by
      cases hx : s.uid_proc_map with
      | none => rfl
      | some um => simp [hx] at hu
    refine Or.inr ⟨hnone, ?_⟩
    simp only [] at h
    cases hl : load_rows env w (db_select_rows w { s with hide_map_ := some [] })
        { s with hide_map_ := some [] } with
    | none => simp [hl] at h
    | some s2 =>
      simp only [hl] at h
      refine ⟨s2, hl, ?_⟩
      by_cases he : w.db_select_error.isSome = true
      · rw [if_pos he] at h
        cases h
        exact Or.inl ⟨he, rfl, rfl⟩
      · rw [if_neg he] at h
        have hen : w.db_select_error = none := by
          cases hx : w.db_select_error with
          | none => rfl
          | some k => simp [hx] at he
        refine Or.inr ⟨hen, ?_⟩
        cases hup : update_uid_map env w { s2 with uid_proc_map := some [] } with
        | none => simp [hup] at h
        | some s4 =>
          simp only [hup] at h
          refine ⟨s4, rfl, ?_⟩
          by_cases hi : w.inotify_init1 < 0
          · rw [if_pos hi] at h
            cases h
            exact ⟨rfl, by simp [hi]⟩
          · rw [if_neg hi] at h
            cases h
            exact ⟨rfl, by simp [hi]⟩

theorem init_list_frame (env : Env) (w : World) (s t : State) (b : Bool)
    (h : init_list env w s = some (b, t)) :
    t.hide_enabled = s.hide_enabled ∧ t.procfp = s.procfp ∧
    t.db_hidelist = s.db_hidelist ∧ t.db_hide_config = s.db_hide_config ∧
    (t.uid_proc_map = s.uid_proc_map ∨ uid_map_built env t.uid_proc_map) ∧
    (b = true → t.uid_proc_map.isSome = true) ∧
    ((s.uid_proc_map.isSome = true → s.hide_map_.isSome = true) →
      (t.uid_proc_map.isSome = true → t.hide_map_.isSome = true)) := by
  rcases init_list_spec env w s t b h with ⟨hu, hb, ht⟩ | ⟨hu, s2, hl, hrest⟩
  · subst ht
    exact ⟨rfl, rfl, rfl, rfl, Or.inl rfl, fun _ => hu, id⟩
  · obtain ⟨⟨f1, f2, f3, f4, f5, f6⟩, fh⟩ := load_rows_frame env w _ _ s2 hl
    have hh2 : s2.hide_map_.isSome = true := fh rfl
    rcases hrest with ⟨-, hb, ht⟩ | ⟨-, s4, hup, ht, hb⟩
    · subst ht
      refine ⟨f3, f4, f5, f6, Or.inl f1, ?_, fun _ _ => hh2⟩
      intro hb2
      rw [hb] at hb2
      cases hb2
    · obtain ⟨g1, g2, g3, g4, g5, g6, g7, g8, g9⟩ := update_uid_map_frame env w _ s4 hup
      subst ht
      refine ⟨g3.trans f3, g4.trans f4, g5.trans f5, g6.trans f6, ?_, fun _ => g8 rfl, ?_⟩
      · rcases g9 with g9 | g9
        · exact Or.inr (by
            show uid_map_built env s4.uid_proc_map
            rw [g9]
            exact uid_map_built_nil env)
        · exact Or.inr g9
      · intro _ _
        show s4.hide_map_.isSome = true
        rw [g1]
        exact hh2

/-! ### The statement buffer -/

theorem snprintf_sql_eq_iff (text : String) : snprintf_sql text = text ↔ text.length ≤ 4095 := by
  unfold snprintf_sql
  constructor
  · intro h
    have h2 : (String.mk (text.data.take 4095)).data = text.data := by rw [h]
    have h3 : text.data.take 4095 = text.data := h2
    rw [List.take_eq_self_iff] at h3
    exact h3
  · intro h
    apply String.ext
    show text.data.take 4095 = text.data
    rw [List.take_eq_self_iff]
    exact h

theorem db_exec_fails_snprintf (flag : Bool) (text : String) :
    db_exec_fails flag (snprintf_sql text) text = (flag || decide (text.length > 4095)) := by
  unfold db_exec_fails
  congr 1
  rw [Bool.eq_iff_iff]
  simp only [decide_eq_true_iff, ne_eq, snprintf_sql_eq_iff]
  omega

theorem insert_sql_length (pkg proc : String) :
    (insert_sql pkg proc).length = 59 + pkg.length + proc.length := by
  unfold insert_sql
  simp only [String.length_append]
  have h1 : "INSERT INTO hidelist (package_name, process) VALUES('".length = 53 := by decide
  have h2 : "', '".length = 4 := by decide
  have h3 : "')".length = 2 := by decide
  rw [h1, h2, h3]
  omega

theorem delete_sql_length (pkg proc : String) :
    (delete_sql pkg proc).length =
      if proc = "" then 42 + pkg.length else 57 + pkg.length + proc.length := by
  unfold delete_sql
  have h1 : "DELETE FROM hidelist WHERE package_name='".length = 41 := by decide
  have h2 : "'".length = 1 := by decide
  have h3 : "' AND process='".length = 15 := by decide
  split_ifs
  · simp only [String.length_append]
    rw [h1, h2]
    omega
  · simp only [String.length_append]
    rw [h1, h2, h3]
    omega

theorem insert_fails_eq (w : World) (pkg proc : String) :
    insert_fails w pkg proc =
      (w.db_insert_error || decide (59 + pkg.length + proc.length > 4095)) := by
  unfold insert_fails
  simp only []
  rw [db_exec_fails_snprintf, insert_sql_length]

theorem delete_fails_eq (w : World) (pkg proc : String) :
    delete_fails w pkg proc =
      (w.db_delete_error ||
        decide ((if proc = "" then 42 + pkg.length else 57 + pkg.length + proc.length) > 4095)) := by
  unfold delete_fails
  simp only []
  rw [db_exec_fails_snprintf, delete_sql_length]

theorem add_list_spec (env : Env) (w : World) (pkg proc : String) (s t : State) (r : Status)
    (h : add_list env w pkg proc s = some (r, t)) :
    (validate env pkg (if proc = "" then pkg else proc) = false ∧
      r = Status.HIDE_INVALID_PKG ∧ t = s) ∨
    (validate env pkg (if proc = "" then pkg else proc) = true ∧
      ((init_list env w s = some (false, t) ∧ r = Status.DAEMON_ERROR) ∨
       ∃ s1, init_list env w s = some (true, s1) ∧
        ((add_hide_set env w pkg (if proc = "" then pkg else proc) s1 = some (false, t) ∧
            r = Status.HIDE_ITEM_EXIST) ∨
         ∃ s2 s3, add_hide_set env w pkg (if proc = "" then pkg else proc) s1 = some (true, s2) ∧
           update_uid_map env w s2 = some s3 ∧
           ((insert_fails w pkg (if proc = "" then pkg else proc) = true ∧
              r = Status.DAEMON_ERROR ∧ t = s3) ∨
            (insert_fails w pkg (if proc = "" then pkg else proc) = false ∧
              r = Status.DAEMON_SUCCESS ∧
              t = { s3 with db_hidelist :=
                s3.db_hidelist ++ [(pkg, if proc = "" then pkg else proc)] }))))) := by
  unfold add_list at h
  simp only [] at h
  by_cases hv : validate env pkg (if proc = "" then pkg else proc) = true
  · refine Or.inr ⟨hv, ?_⟩
    simp only [hv, Bool.not_true, Bool.false_eq_true, if_false] at h
    cases hi : init_list env w s with
    | none => simp [hi] at h
    | some ri =>
      obtain ⟨bi, s1⟩ := ri
      cases bi with
      | false =>
        simp only [hi] at h
        cases h
        exact Or.inl ⟨rfl, rfl⟩
      | true =>
        simp only [hi] at h
        refine Or.inr ⟨s1, rfl, ?_⟩
        cases ha : add_hide_set env w pkg (if proc = "" then pkg else proc) s1 with
        | none => simp [ha] at h
        | some ra =>
          obtain ⟨ba, s2⟩ := ra
          cases ba with
          | false =>
            simp only [ha] at h
            cases h
            exact Or.inl ⟨rfl, rfl⟩
          | true =>
            simp only [ha] at h
            cases hup : update_uid_map env w s2 with
            | none => simp [hup] at h
            | some s3 =>
              simp only [hup] at h
              refine Or.inr ⟨s2, s3, rfl, hup, ?_⟩
              by_cases hd : insert_fails w pkg (if proc = "" then pkg else proc) = true
              · rw [if_pos hd] at h
                cases h
                exact Or.inl ⟨hd, rfl, rfl⟩
              · rw [if_neg hd] at h
                cases h
                exact Or.inr ⟨by simpa using hd, rfl, rfl⟩
  · have hv2 : validate env pkg (if proc = "" then pkg else proc) = false := by simpa using hv
    simp only [hv2, Bool.not_false, if_true] at h
    cases h
    exact Or.inl ⟨hv2, rfl, rfl⟩

theorem rm_list_spec (env : Env) (w : World) (pkg proc : String) (s t : State) (r : Status)
    (h : rm_list env w pkg proc s = some (r, t)) :
    (init_list env w s = some (false, t) ∧ r = Status.DAEMON_ERROR) ∨
    ∃ s1 hm e, init_list env w s = some (true, s1) ∧ s1.hide_map_ = some hm ∧
      e = (if proc = "" then hide_map_erase hm pkg else hide_map_erase_proc hm pkg proc) ∧
      ((e.2 = false ∧ r = Status.HIDE_ITEM_NOT_EXIST ∧ t = { s1 with hide_map_ := some e.1 }) ∨
       (e.2 = true ∧
        ∃ s3, update_uid_map env w { s1 with hide_map_ := some e.1 } = some s3 ∧
          ((delete_fails w pkg proc = true ∧ r = Status.DAEMON_ERROR ∧ t = s3) ∨
           (delete_fails w pkg proc = false ∧ r = Status.DAEMON_SUCCESS ∧
             t = { s3 with db_hidelist :=
               if proc = "" then s3.db_hidelist.filter (fun row => decide (row.1 ≠ pkg))
               else s3.db_hidelist.filter (fun row => decide (row ≠ (pkg, proc))) })))) := by
  unfold rm_list at h
  cases hi : init_list env w s with
  | none => simp [hi] at h
  | some ri =>
    obtain ⟨bi, s1⟩ := ri
    cases bi with
    | false =>
      simp only [hi] at h
      cases h
      exact Or.inl ⟨rfl, rfl⟩
    | true =>
      simp only [hi] at h
      cases hhm : s1.hide_map_ with
      | none => simp [hhm] at h
      | some hm =>
        simp only [hhm] at h
        refine Or.inr ⟨s1, hm, _, rfl, hhm, rfl, ?_⟩
        generalize (if proc = "" then hide_map_erase hm pkg
          else hide_map_erase_proc hm pkg proc) = e at h ⊢
        by_cases hr : e.2 = true
        · refine Or.inr ⟨hr, ?_⟩
          simp only [hr, Bool.not_true, Bool.false_eq_true, if_false] at h
          cases hup : update_uid_map env w { s1 with hide_map_ := some e.1 } with
          | none => simp [hup] at h
          | some s3 =>
            simp only [hup] at h
            refine ⟨s3, rfl, ?_⟩
            by_cases hd : delete_fails w pkg proc = true
            · rw [if_pos hd] at h
              cases h
              exact Or.inl ⟨hd, rfl, rfl⟩
            · rw [if_neg hd] at h
              refine Or.inr ⟨by simpa using hd, ?_⟩
              by_cases hp : proc = ""
              · rw [if_pos hp] at h
                cases h
                exact ⟨rfl, by simp [hp]⟩
              · rw [if_neg hp] at h
                cases h
                exact ⟨rfl, by simp [hp]⟩
        · have hr2 : e.2 = false := by simpa using hr
          simp only [hr2, Bool.not_false, if_true] at h
          cases h
          exact Or.inl ⟨hr2, rfl, rfl⟩

theorem kept_or_built_refl (env : Env) (s : State) : uid_map_kept_or_built env s s :=
  Or.inl rfl

theorem kept_or_built_trans (env : Env) (s t u : State)
    (h1 : uid_map_kept_or_built env s t) (h2 : uid_map_kept_or_built env t u) :
    uid_map_kept_or_built env s u := by
  rcases h2 with h2 | h2
  · rcases h1 with h1 | h1
    · exact Or.inl (h2.trans h1)
    · exact Or.inr (by rw [h2]; exact h1)
  · exact Or.inr h2

theorem kept_or_built_of_eq (env : Env) (s t : State) (h : t.uid_proc_map = s.uid_proc_map) :
    uid_map_kept_or_built env s t := Or.inl h

theorem init_list_kept_or_built (env : Env) (w : World) (s t : State) (b : Bool)
    (h : init_list env w s = some (b, t)) : uid_map_kept_or_built env s t :=
  (init_list_frame env w s t b h).2.2.2.2.1

theorem update_uid_map_kept_or_built (env : Env) (w : World) (s t : State)
    (h : update_uid_map env w s = some t) : uid_map_kept_or_built env s t :=
  (update_uid_map_frame env w s t h).2.2.2.2.2.2.2.2

theorem add_hide_set_kept (env : Env) (w : World) (pkg proc : String) (s t : State) (b : Bool)
    (h : add_hide_set env w pkg proc s = some (b, t)) : uid_map_kept_or_built env s t :=
  Or.inl (add_hide_set_frame env w pkg proc s t b h).1.1

theorem kill_process_kept (env : Env) (w : World) (name : String) (multi : Bool)
    (filter : Int → String → Bool) (s t : State)
    (h : kill_process env w name multi filter s = some t) : uid_map_kept_or_built env s t :=
  Or.inl (kill_process_frame env w name multi filter s t h).1.1

theorem add_list_kept_or_built (env : Env) (w : World) (pkg proc : String) (s t : State)
    (r : Status) (h : add_list env w pkg proc s = some (r, t)) :
    uid_map_kept_or_built env s t := by
  rcases add_list_spec env w pkg proc s t r h with ⟨-, -, ht⟩ | ⟨-, ⟨hi, -⟩ | ⟨s1, hi, hrest⟩⟩
  · subst ht
    exact kept_or_built_refl env _
  · exact init_list_kept_or_built env w s t false hi
  · have k1 := init_list_kept_or_built env w s s1 true hi
    rcases hrest with ⟨ha, -⟩ | ⟨s2, s3, ha, hup, hdb⟩
    · exact kept_or_built_trans env s s1 t k1 (add_hide_set_kept env w _ _ s1 t false ha)
    · have k2 := add_hide_set_kept env w _ _ s1 s2 true ha
      have k3 := update_uid_map_kept_or_built env w s2 s3 hup
      have k13 := kept_or_built_trans env s s1 s3 k1 (kept_or_built_trans env s1 s2 s3 k2 k3)
      rcases hdb with ⟨-, -, ht⟩ | ⟨-, -, ht⟩
      · subst ht
        exact k13
      · subst ht
        exact k13

theorem rm_list_kept_or_built (env : Env) (w : World) (pkg proc : String) (s t : State)
    (r : Status) (h : rm_list env w pkg proc s = some (r, t)) :
    uid_map_kept_or_built env s t := by
  rcases rm_list_spec env w pkg proc s t r h with ⟨hi, -⟩ | ⟨s1, hm, e, hi, -, -, hrest⟩
  · exact init_list_kept_or_built env w s t false hi
  · have k1 := init_list_kept_or_built env w s s1 true hi
    rcases hrest with ⟨-, -, ht⟩ | ⟨-, s3, hup, hdb⟩
    · subst ht
      exact k1
    · have k3 := update_uid_map_kept_or_built env w _ s3 hup
      have k13 : uid_map_kept_or_built env s s3 :=
        kept_or_built_trans env s _ s3 (show uid_map_kept_or_built env s
          { s1 with hide_map_ := some e.1 } from k1) k3
      rcases hdb with ⟨-, -, ht⟩ | ⟨-, -, ht⟩
      · subst ht
        exact k13
      · subst ht
        exact k13

theorem ls_list_state (env : Env) (w : World) (s t : State) (out : List Out)
    (h : ls_list env w s = some (out, t)) : ∃ b, init_list env w s = some (b, t) := by
  unfold ls_list at h
  cases hi : init_list env w s with
  | none => simp [hi] at h
  | some ri =>
    obtain ⟨bi, s1⟩ := ri
    cases bi with
    | false =>
      simp only [hi] at h
      cases h
      exact ⟨false, rfl⟩
    | true =>
      simp only [hi] at h
      cases hhm : s1.hide_map_ with
      | none => simp [hhm] at h
      | some hm =>
        simp only [hhm] at h
        cases h
        exact ⟨true, rfl⟩

theorem is_hide_target_state (env : Env) (w : World) (uid : Int) (process : String)
    (max_len : Int) (s t : State) (b : Bool)
    (h : is_hide_target env w uid process max_len s = some (b, t)) :
    ∃ bi, init_list env w s = some (bi, t) := by
  unfold is_hide_target at h
  cases hi : init_list env w s with
  | none => simp [hi] at h
  | some ri =>
    obtain ⟨bi, s1⟩ := ri
    cases bi with
    | false =>
      simp only [hi] at h
      cases h
      exact ⟨false, rfl⟩
    | true =>
      simp only [hi] at h
      cases hum : s1.uid_proc_map with
      | none => simp [hum] at h
      | some um =>
        simp only [hum] at h
        refine ⟨true, ?_⟩
        split_ifs at h
        · cases hl : List.lookup (-1) um with
          | none =>
            simp only [hl] at h
            cases h
            rfl
          | some bucket =>
            simp only [hl] at h
            cases h
            rfl
        · cases hl : List.lookup (env.to_app_id uid) um with
          | none =>
            simp only [hl] at h
            cases h
            rfl
          | some bucket =>
            simp only [hl] at h
            cases h
            rfl

theorem launch_kills_frame (env : Env) (w : World) (s t : State)
    (h : launch_kills env w s = some t) :
    same_but_hide_map s t ∧ t.hide_map_ = s.hide_map_ := by
  unfold launch_kills at h
  split_ifs at h
  · cases h1 : kill_process env w "usap32" true (proc_name_match str_eql w) s with
    | none => simp [h1] at h
    | some s1 =>
      simp only [h1] at h
      cases h2 : kill_process env w "usap64" true (proc_name_match str_eql w) s1 with
      | none => simp [h2] at h
      | some s2 =>
        simp only [h2] at h
        obtain ⟨f1, g1⟩ := kill_process_frame env w _ _ _ s s1 h1
        obtain ⟨f2, g2⟩ := kill_process_frame env w _ _ _ s1 s2 h2
        obtain ⟨f3, g3⟩ := kill_process_frame env w _ _ _ s2 t h
        exact ⟨same_but_hide_map_trans s s1 t f1 (same_but_hide_map_trans s1 s2 t f2 f3),
          g3.trans (g2.trans g1)⟩
  · cases h
    exact ⟨same_but_hide_map_refl _, rfl⟩

theorem launch_magiskhide_spec (env : Env) (w : World) (s t : State) (r : Status)
    (h : launch_magiskhide env w s = some (r, t)) :
    (s.hide_enabled = true ∧ r = Status.DAEMON_SUCCESS ∧ t = s) ∨
    (s.hide_enabled = false ∧ w.access_ns_mnt = false ∧ r = Status.HIDE_NO_NS ∧ t = s) ∨
    (s.hide_enabled = false ∧ s.procfp = false ∧ w.opendir_proc = false ∧
      r = Status.DAEMON_ERROR ∧ t = s) ∨
    (s.hide_enabled = false ∧ w.access_ns_mnt = true ∧
      ((∃ s2, init_list env w { s with procfp := true, hide_enabled := true } = some (false, s2) ∧
          r = Status.DAEMON_ERROR ∧ t = { s2 with hide_enabled := false }) ∨
       (∃ s2 s3 s4 s5 b4 b5,
          init_list env w { s with procfp := true, hide_enabled := true } = some (true, s2) ∧
          launch_kills env w s2 = some s3 ∧
          add_hide_set env w GMS_PKG SNET_PROC s3 = some (b4, s4) ∧
          (if env.MAGISKTMP ≠ "/sbin" then add_hide_set env w GMS_PKG GMS_PKG s4
            else some (true, s4)) = some (b5, s5) ∧
          ((w.new_daemon_thread ≠ 0 ∧ r = Status.DAEMON_ERROR ∧ t = s5) ∨
           (w.new_daemon_thread = 0 ∧ r = Status.DAEMON_SUCCESS ∧
              ∃ s6, update_uid_map env w s5 = some s6 ∧ t = update_hide_config w s6))))) := by
  unfold launch_magiskhide at h
  by_cases he : s.hide_enabled = true
  · rw [if_pos he] at h
    cases h
    exact Or.inl ⟨he, rfl, rfl⟩
  · have he2 : s.hide_enabled = false := by simpa using he
    rw [if_neg he] at h
    by_cases hns : (!w.access_ns_mnt) = true
    · rw [if_pos hns] at h
      cases h
      exact Or.inr (Or.inl ⟨he2, by simpa using hns, rfl, rfl⟩)
    · rw [if_neg hns] at h
      have hns2 : w.access_ns_mnt = true := by simpa using hns
      by_cases hpr : (!s.procfp && !w.opendir_proc) = true
      · rw [if_pos hpr] at h
        cases h
        have : s.procfp = false ∧ w.opendir_proc = false := by simpa using hpr
        exact Or.inr (Or.inr (Or.inl ⟨he2, this.1, this.2, rfl, rfl⟩))
      · rw [if_neg hpr] at h
        refine Or.inr (Or.inr (Or.inr ⟨he2, hns2, ?_⟩))
        simp only [] at h
        cases hi : init_list env w { s with procfp := true, hide_enabled := true } with
        | none => simp [hi] at h
        | some ri =>
          obtain ⟨bi, s2⟩ := ri
          cases bi with
          | false =>
            simp only [hi] at h
            cases h
            exact Or.inl ⟨s2, rfl, rfl, rfl⟩
          | true =>
            simp only [hi] at h
            cases hk : launch_kills env w s2 with
            | none => simp [hk] at h
            | some s3 =>
              simp only [hk] at h
              cases h4 : add_hide_set env w GMS_PKG SNET_PROC s3 with
              | none => simp [h4] at h
              | some r4 =>
                obtain ⟨b4, s4⟩ := r4
                simp only [h4] at h
                cases h5 : (if env.MAGISKTMP ≠ "/sbin" then add_hide_set env w GMS_PKG GMS_PKG s4
                    else some (true, s4)) with
                | none => simp [h5] at h
                | some r5 =>
                  obtain ⟨b5, s5⟩ := r5
                  simp only [h5] at h
                  refine Or.inr ⟨s2, s3, s4, s5, b4, b5, rfl, hk, h4, h5, ?_⟩
                  by_cases hth : w.new_daemon_thread ≠ 0
                  · rw [if_pos hth] at h
                    cases h
                    exact Or.inl ⟨hth, rfl, rfl⟩
                  · rw [if_neg hth] at h
                    cases h6 : update_uid_map env w s5 with
                    | none => simp [h6] at h
                    | some s6 =>
                      simp only [h6] at h
                      cases h
                      exact Or.inr ⟨by simpa using hth, rfl, s6, rfl, rfl⟩

theorem update_hide_config_frame (w : World) (s : State) :
    (update_hide_config w s).hide_map_ = s.hide_map_ ∧
    (update_hide_config w s).uid_proc_map = s.uid_proc_map ∧
    (update_hide_config w s).inotify_fd = s.inotify_fd ∧
    (update_hide_config w s).hide_enabled = s.hide_enabled ∧
    (update_hide_config w s).procfp = s.procfp ∧
    (update_hide_config w s).db_hidelist = s.db_hidelist ∧
    (update_hide_config w s).trace = s.trace := by
  unfold update_hide_config
  split_ifs
  · exact ⟨rfl, rfl, rfl, rfl, rfl, rfl, rfl⟩
  · exact ⟨rfl, rfl, rfl, rfl, rfl, rfl, rfl⟩

theorem launch_magiskhide_kept_or_built (env : Env) (w : World) (s t : State) (r : Status)
    (h : launch_magiskhide env w s = some (r, t)) : uid_map_kept_or_built env s t := by
  rcases launch_magiskhide_spec env w s t r h with
    ⟨-, -, ht⟩ | ⟨-, -, -, ht⟩ | ⟨-, -, -, -, ht⟩ | ⟨-, -, hrest⟩
  · subst ht; exact kept_or_built_refl env _
  · subst ht; exact kept_or_built_refl env _
  · subst ht; exact kept_or_built_refl env _
  · rcases hrest with ⟨s2, hi, -, ht⟩ | ⟨s2, s3, s4, s5, b4, b5, hi, hk, h4, h5, hfin⟩
    · subst ht
      exact init_list_kept_or_built env w { s with procfp := true, hide_enabled := true } s2
        false hi
    · have k2 : uid_map_kept_or_built env s s2 :=
        init_list_kept_or_built env w { s with procfp := true, hide_enabled := true } s2 true hi
      have k3 : uid_map_kept_or_built env s2 s3 := Or.inl (launch_kills_frame env w s2 s3 hk).1.1
      have k4 := add_hide_set_kept env w _ _ s3 s4 b4 h4
      have k5 : uid_map_kept_or_built env s4 s5 := by
        split_ifs at h5
        · exact add_hide_set_kept env w _ _ s4 s5 b5 h5
        · cases h5
          exact kept_or_built_refl env _
      have k15 := kept_or_built_trans env s s2 s5 k2
        (kept_or_built_trans env s2 s3 s5 k3 (kept_or_built_trans env s3 s4 s5 k4 k5))
      rcases hfin with ⟨-, -, ht⟩ | ⟨-, -, s6, h6, ht⟩
      · subst ht
        exact k15
      · have k6 := update_uid_map_kept_or_built env w s5 s6 h6
        have k7 : uid_map_kept_or_built env s6 t := by
          subst ht
          exact Or.inl (update_hide_config_frame w s6).2.1
        exact kept_or_built_trans env s s5 t k15 (kept_or_built_trans env s5 s6 t k6 k7)

theorem stop_magiskhide_kept_or_built (env : Env) (w : World) (s : State) :
    uid_map_kept_or_built env s (stop_magiskhide w s).2 := by
  unfold stop_magiskhide
  simp only []
  unfold uid_map_kept_or_built
  rw [(update_hide_config_frame w _).2.1]
  by_cases he : s.hide_enabled = true
  · rw [if_pos he]
    exact Or.inr (uid_map_built_none env)
  · rw [if_neg he]
    exact Or.inl rfl

theorem step_kept_or_built (env : Env) (w : World) (s t : State) (op : Op)
    (h : step env w s op = some t) : uid_map_kept_or_built env s t := by
  cases op with
  | add pkg proc =>
    simp only [step, Option.map_eq_some'] at h
    obtain ⟨⟨r, t2⟩, h1, h2⟩ := h
    cases h2
    exact add_list_kept_or_built env w pkg proc s _ r h1
  | rm pkg proc =>
    simp only [step, Option.map_eq_some'] at h
    obtain ⟨⟨r, t2⟩, h1, h2⟩ := h
    cases h2
    exact rm_list_kept_or_built env w pkg proc s _ r h1
  | ls =>
    simp only [step, Option.map_eq_some'] at h
    obtain ⟨⟨out, t2⟩, h1, h2⟩ := h
    cases h2
    obtain ⟨b, hb⟩ := ls_list_state env w s _ out h1
    exact init_list_kept_or_built env w s _ b hb
  | launch =>
    simp only [step, Option.map_eq_some'] at h
    obtain ⟨⟨r, t2⟩, h1, h2⟩ := h
    cases h2
    exact launch_magiskhide_kept_or_built env w s _ r h1
  | stop =>
    simp only [step, Option.some.injEq] at h
    subst h
    exact stop_magiskhide_kept_or_built env w s
  | query uid process max_len =>
    simp only [step, Option.map_eq_some'] at h
    obtain ⟨⟨r, t2⟩, h1, h2⟩ := h
    cases h2
    obtain ⟨b, hb⟩ := is_hide_target_state env w uid process max_len s _ r h1
    exact init_list_kept_or_built env w s _ b hb

theorem reachable_uid_map_built (env : Env) (s : State) (h : Reachable env s) :
    uid_map_built env s.uid_proc_map := by
  induction h with
  | boot rows cfg => exact uid_map_built_none env
  | step w op s t _ hstep ih =>
    rcases step_kept_or_built env w s t op hstep with h1 | h1
    · rw [h1]
      exact ih
    · exact h1

/-! ### Mapping consistency -/

theorem reachable_run (env : Env) (w : World) (ops : List Op) (s t : State)
    (hs : Reachable env s) (h : run env w ops s = some t) : Reachable env t := by
  induction ops generalizing s with
  | nil =>
    rw [run] at h
    cases h
    exact hs
  | cons op ops ih =>
    rw [run] at h
    cases hstep : step env w s op with
    | none => simp [hstep] at h
    | some s1 =>
      rw [hstep] at h
      exact ih s1 (Reachable.step w op s s1 hs hstep) h

theorem mem_of_lookup {K V : Type} [DecidableEq K] (k : K) (v : V) (l : List (K × V))
    (h : List.lookup k l = some v) : (k, v) ∈ l := by
  induction l with
  | nil => cases h
  | cons e l ih =>
    obtain ⟨a, b⟩ := e
    rw [lookup_cons_eq] at h
    by_cases hk : k = a
    · rw [if_pos hk] at h
      cases h
      rw [hk]
      exact List.mem_cons_self _ _
    · rw [if_neg hk] at h
      exact List.mem_cons_of_mem _ (ih h)

theorem hide_map_emplace_mem (hm : HideMap) (pkg proc : String) :
    ∃ procs, (pkg, procs) ∈ (hide_map_emplace hm pkg proc).1 ∧ proc ∈ procs := by
  unfold hide_map_emplace
  cases hl : hm.lookup pkg with
  | none =>
    exact ⟨[proc], by simp, by simp⟩
  | some procs =>
    have hmem := mem_of_lookup pkg procs hm hl
    by_cases hp : proc ∈ procs
    · simp only [if_pos hp]
      exact ⟨procs, hmem, hp⟩
    · simp only [if_neg hp]
      refine ⟨str_set_insert procs proc, ?_, ?_⟩
      · rw [List.mem_map]
        exact ⟨(pkg, procs), hmem, by simp⟩
      · unfold str_set_insert
        simp

theorem resolve_app_id_isolated (env : Env) (w : World) (users : List String) :
    resolve_app_id env w users env.ISOLATED_MAGIC = some (-1) := by
  simp [resolve_app_id]

theorem resolve_app_id_minus_one (env : Env) (w : World) (users : List String) (pkg : String)
    (h : resolve_app_id env w users pkg = some (-1)) : pkg = env.ISOLATED_MAGIC := by
  unfold resolve_app_id at h
  by_cases hp : pkg ≠ env.ISOLATED_MAGIC
  · rw [if_pos hp] at h
    by_cases hneg : find_app_id env w pkg users < 0
    · rw [if_pos hneg] at h
      cases h
    · rw [if_neg hneg] at h
      have : find_app_id env w pkg users = -1 := by simpa using h
      omega
  · simpa using hp

theorem lookup_fill_nil (env : Env) (w : World) (users : List String) (hm : HideMap) (k : Int)
    (x : String) (hx : x ∈ names_under env w users k hm) :
    (fill_uid_map env w users hm []).lookup k = some (names_under env w users k hm) := by
  rw [lookup_fill_uid_map]
  have hne : names_under env w users k hm ≠ [] := by
    intro h0
    rw [h0] at hx
    cases hx
  rw [if_neg hne]
  simp

theorem isolated_match_of_starts (process : String) (max_len : Int) (bucket : List String)
    (s : String) (hs : s ∈ bucket) (h : str_starts process s = true) :
    isolated_match process max_len bucket = true :=
  (isolated_match_iff process max_len bucket).2 ⟨s, hs, Or.inr h⟩

theorem isolated_match_only (process : String) (max_len : Int) (bucket : List String)
    (s : String) (hall : ∀ x ∈ bucket, x = s) (h1 : str_starts process s = false)
    (h2 : str_starts s process = false) : isolated_match process max_len bucket = false := by
  cases hm : isolated_match process max_len bucket with
  | false => rfl
  | true =>
    obtain ⟨x, hx, h | h⟩ := (isolated_match_iff process max_len bucket).1 hm
    · rw [hall x hx] at h
      simp [trunc_hit, h2] at h
    · rw [hall x hx, h1] at h
      cases h

/-- C4 (amended): with enforcement active and an application-data root that can
be opened, after `add_list(ISOLATED_MAGIC, name)` has succeeded the registered
name is in the `-1` bucket of the map, whatever `stat` answers; every process
name starting with it is a hide target for every uid with app ID >= 90000 and
every `max_len`; and when every isolated entry of the hide list is that one
name, a process name that neither starts with it nor is an initial segment of
it is not a hide target. -/
theorem isolated_registration (env : Env) (w : World) (s t : State) (name : String)
    (users : List String)
    (hz : env.zygisk_enabled = true) (he : s.hide_enabled = true)
    (hu : w.users = some users)
    (hadd : add_list env w env.ISOLATED_MAGIC name s = some (Status.DAEMON_SUCCESS, t)) :
    (∃ um bucket, t.uid_proc_map = some um ∧ um.lookup (-1) = some bucket ∧
      (if name = "" then env.ISOLATED_MAGIC else name) ∈ bucket) ∧
    (∀ w2 uid p max_len, env.to_app_id uid ≥ 90000 →
      str_starts p (if name = "" then env.ISOLATED_MAGIC else name) = true →
      is_hide_target env w2 uid p max_len t = some (true, t)) ∧
    (∀ hm, t.hide_map_ = some hm →
      (∀ e ∈ hm, e.1 = env.ISOLATED_MAGIC →
        e.2 = [if name = "" then env.ISOLATED_MAGIC else name]) →
      ∀ w2 uid p max_len, env.to_app_id uid ≥ 90000 →
        str_starts p (if name = "" then env.ISOLATED_MAGIC else name) = false →
        str_starts (if name = "" then env.ISOLATED_MAGIC else name) p = false →
        is_hide_target env w2 uid p max_len t = some (false, t)) := by
  generalize hreg : (if name = "" then env.ISOLATED_MAGIC else name) = reg at hadd ⊢
  rcases add_list_spec env w env.ISOLATED_MAGIC name s t _ hadd with
    ⟨-, hr, -⟩ | ⟨-, ⟨-, hr⟩ | ⟨s1, hi, hrest⟩⟩
  · cases hr
  · cases hr
  · rw [hreg] at hrest
    rcases hrest with ⟨-, hr⟩ | ⟨s2, s3, ha, hup, hdb⟩
    · cases hr
    · rcases hdb with ⟨-, hr, -⟩ | ⟨-, -, ht⟩
      · cases hr
      · obtain ⟨i1, -, -, -, -, -, -⟩ := init_list_frame env w s s1 true hi
        obtain ⟨hm1, evs, hhm1, -, hs2, -⟩ := add_hide_set_spec env w _ _ s1 s2 true ha
        have hk2 : do_kill env s2 = true := by
          rw [hs2]
          simp [do_kill, hz, i1, he]
        have hhm2 : s2.hide_map_ = some (hide_map_emplace hm1 env.ISOLATED_MAGIC reg).1 := by
          rw [hs2]
        rcases update_uid_map_spec env w s2 s3 hup with
          ⟨hk, -⟩ | ⟨-, -, hnone, -⟩ | ⟨-, -, users2, hm2, hu2, hh2, hs3⟩
        · rw [hk2] at hk
          cases hk
        · rw [hu] at hnone
          cases hnone
        · rw [hhm2] at hh2
          cases hh2
          have htu : t.uid_proc_map = some (fill_uid_map env w users2
              (hide_map_emplace hm1 env.ISOLATED_MAGIC reg).1 []) := by
            rw [ht, hs3]
          have hth : t.hide_map_ = some (hide_map_emplace hm1 env.ISOLATED_MAGIC reg).1 := by
            rw [ht, hs3]
            exact hhm2
          obtain ⟨procs, hmem, hin⟩ := hide_map_emplace_mem hm1 env.ISOLATED_MAGIC reg
          have hnames : reg ∈ names_under env w users2 (-1)
              (hide_map_emplace hm1 env.ISOLATED_MAGIC reg).1 :=
            (mem_names_under env w users2 (-1) _ reg).2
              ⟨(env.ISOLATED_MAGIC, procs), hmem, resolve_app_id_isolated env w users2, hin⟩
          have hlook := lookup_fill_nil env w users2 _ (-1) reg hnames
          refine ⟨⟨_, _, htu, hlook, hnames⟩, ?_, ?_⟩
          · intro w2 uid p max_len huid hst
            rw [is_hide_target_ready env w2 t _ uid p max_len htu, if_pos huid, hlook]
            simp [isolated_match_of_starts p max_len _ reg hnames hst]
          · intro hm hhm honly w2 uid p max_len huid hst1 hst2
            rw [hth] at hhm
            cases hhm
            have hall : ∀ x ∈ names_under env w users2 (-1)
                (hide_map_emplace hm1 env.ISOLATED_MAGIC reg).1, x = reg := by
              intro x hx
              obtain ⟨e, he1, he2, he3⟩ := (mem_names_under env w users2 (-1) _ x).1 hx
              have := honly e he1 (resolve_app_id_minus_one env w users2 e.1 he2)
              rw [this] at he3
              simpa using he3
            rw [is_hide_target_ready env w2 t _ uid p max_len htu, if_pos huid, hlook]
            simp [isolated_match_only p max_len _ reg hall hst1 hst2]


/-- C4 (amended) on the state reached from boot by enabling, in the sample
world: after `add_list("isolated", "sandbox_proc")`, uid 90010 with
`max_len = 255` has `sandbox_proc:42` as a hide target and `other_proc` not. -/
theorem isolated_registration_witness :
    run Env.android World.sample [Op.launch] (State.boot [] none) =
      some State.sample_enabled ∧
    Env.android.zygisk_enabled = true ∧ State.sample_enabled.hide_enabled = true ∧
    World.sample.users = some ["0"] ∧
    add_list Env.android World.sample Env.android.ISOLATED_MAGIC "sandbox_proc"
        State.sample_enabled = some (Status.DAEMON_SUCCESS, State.sample_isolated) ∧
    State.sample_isolated.hide_map_ =
      some [("com.google.android.gms", ["com.google.android.gms.unstable"]),
        ("isolated", ["sandbox_proc"])] ∧
    is_hide_target Env.android World.sample 90010 "sandbox_proc:42" 255
        State.sample_isolated = some (true, State.sample_isolated) ∧
    is_hide_target Env.android World.sample 90010 "other_proc" 255
        State.sample_isolated = some (false, State.sample_isolated) :=
  ⟨by decide, by decide, by decide, by decide, by decide, by decide,
    (isolated_registration Env.android World.sample State.sample_enabled
      State.sample_isolated "sandbox_proc" ["0"] (by decide) (by decide) (by decide)
      (by decide)).2.1 World.sample 90010 "sandbox_proc:42" 255 (by decide) (by decide),
    (isolated_registration Env.android World.sample State.sample_enabled
      State.sample_isolated "sandbox_proc" ["0"] (by decide) (by decide) (by decide)
      (by decide)).2.2
      [("com.google.android.gms", ["com.google.android.gms.unstable"]),
        ("isolated", ["sandbox_proc"])]
      (by decide) (by decide) World.sample 90010 "other_proc" 255
      (by decide) (by decide) (by decide)⟩

/-- C4 as stated fails when the application-data root cannot be opened: with
enforcement active, `add_list("isolated", "sandbox_proc")` succeeds and the
hide list holds the pair, but `update_uid_map` leaves the map empty, so nothing
is stored under `-1` and `sandbox_proc:42` is not a hide target for uid 90010. -/
theorem isolated_registration_counterexample :
    ∃ s t, run Env.android World.no_data_dir [Op.launch] (State.boot [] none) = some s ∧
      do_kill Env.android s = true ∧
      add_list Env.android World.no_data_dir Env.android.ISOLATED_MAGIC "sandbox_proc" s =
        some (Status.DAEMON_SUCCESS, t) ∧
      t.hide_map_ = some [("com.google.android.gms", ["com.google.android.gms.unstable"]),
        ("isolated", ["sandbox_proc"])] ∧
      t.uid_proc_map = some [] ∧
      Env.android.to_app_id 90010 ≥ 90000 ∧
      str_starts "sandbox_proc:42" "sandbox_proc" = true ∧
      is_hide_target Env.android World.no_data_dir 90010 "sandbox_proc:42" 255 t =
        some (false, t) :=
  ⟨_, _, rfl, by decide, rfl, by decide, by decide, by decide, by decide, by decide⟩


/-! ### Identity resolution in `update_uid_map` -/

theorem find_app_id_all_present (env : Env) (w : World) (pkg : String) (users : List String)
    (h : ∀ user_id ∈ users,
      (w.stat (env.APP_DATA_DIR ++ "/" ++ user_id ++ "/" ++ pkg)).isSome = true) :
    find_app_id env w pkg users = -1 := by
  induction users with
  | nil => rfl
  | cons u users ih =>
    unfold find_app_id
    simp only []
    have hu := h u (List.mem_cons_self _ _)
    cases hst : w.stat (env.APP_DATA_DIR ++ "/" ++ u ++ "/" ++ pkg) with
    | none => simp [hst] at hu
    | some uid => exact ih (fun x hx => h x (List.mem_cons_of_mem _ hx))

/-- C9 at the failing input: in the sample world the only profile `0` holds the
data directory of `com.example.app`, owned by uid 10123, and no directory of
`com.google.android.gms`.  After enabling and `add_list("com.example.app", "")`
the hide list holds both packages, but the map holds nothing for
`com.example.app`, so uid 10123 is not a hide target, while the names of the
absent package sit under app ID 0 and make uid 0 a hide target. -/
theorem update_uid_map_inverted_stat :
    ∃ st, run Env.android World.sample [Op.launch, Op.add "com.example.app" ""]
        (State.boot [] none) = some st ∧
      World.sample.users = some ["0"] ∧
      World.sample.stat "/data/user_de/0/com.example.app" = some 10123 ∧
      World.sample.stat "/data/user_de/0/com.google.android.gms" = none ∧
      do_kill Env.android st = true ∧
      st.hide_map_ = some [("com.example.app", ["com.example.app"]),
        ("com.google.android.gms", ["com.google.android.gms.unstable"])] ∧
      st.uid_proc_map = some [(0, ["com.google.android.gms.unstable"])] ∧
      is_hide_target Env.android World.sample 10123 "com.example.app" 255 st =
        some (false, st) ∧
      is_hide_target Env.android World.sample 0 "com.google.android.gms.unstable" 255 st =
        some (true, st) :=
  ⟨_, rfl, by decide, by decide, by decide, by decide, by decide, by decide, by decide,
    by decide⟩

/-! ### Pairs of the hide list -/

theorem in_registry_iff (hm : HideMap) (pkg proc : String) :
    in_registry hm pkg proc = true ↔ ∃ procs, hm.lookup pkg = some procs ∧ proc ∈ procs := by
  unfold in_registry
  cases h : hm.lookup pkg with
  | none => simp
  | some procs => simp

theorem hide_map_emplace_second (hm : HideMap) (pkg proc : String) :
    (hide_map_emplace hm pkg proc).2 = !in_registry hm pkg proc := by
  unfold hide_map_emplace in_registry
  cases h : hm.lookup pkg with
  | none => simp
  | some procs =>
    by_cases hp : proc ∈ procs
    · simp [hp]
    · simp [hp]

theorem hide_map_emplace_exists (hm : HideMap) (pkg proc : String)
    (h : in_registry hm pkg proc = true) : (hide_map_emplace hm pkg proc).1 = hm := by
  unfold hide_map_emplace
  obtain ⟨procs, hl, hp⟩ := (in_registry_iff hm pkg proc).1 h
  simp [hl, hp]

theorem lookup_hide_map_emplace (hm : HideMap) (pkg proc : String) (k : String) :
    (hide_map_emplace hm pkg proc).1.lookup k =
      if k = pkg then
        (match hm.lookup pkg with
          | some procs => some (if proc ∈ procs then procs else str_set_insert procs proc)
          | none => some [proc])
      else hm.lookup k := by
  unfold hide_map_emplace
  cases h : hm.lookup pkg with
  | none =>
    simp only []
    rw [lookup_orderedInsert _ _ _ _ _ h]
  | some procs =>
    by_cases hp : proc ∈ procs
    · simp only [if_pos hp]
      by_cases hk : k = pkg
      · rw [if_pos hk, hk, h]
      · rw [if_neg hk]
    · simp only [if_neg hp]
      rw [lookup_map_update (fun v => str_set_insert v proc)]
      by_cases hk : k = pkg
      · rw [if_pos hk, if_pos hk, hk, h]
        rfl
      · rw [if_neg hk, if_neg hk]

theorem mem_str_set_insert (procs : str_set) (proc x : String) :
    x ∈ str_set_insert procs proc ↔ x = proc ∨ x ∈ procs := by
  unfold str_set_insert
  rw [List.mem_orderedInsert]

theorem in_registry_emplace (hm : HideMap) (pkg proc : String) (k x : String) :
    in_registry (hide_map_emplace hm pkg proc).1 k x =
      (in_registry hm k x || (decide (k = pkg) && decide (x = proc))) := by
  rw [Bool.eq_iff_iff]
  simp only [Bool.or_eq_true, Bool.and_eq_true, decide_eq_true_iff]
  rw [in_registry_iff, in_registry_iff, lookup_hide_map_emplace]
  by_cases hk : k = pkg
  · subst hk
    rw [if_pos rfl]
    cases h : hm.lookup k with
    | none =>
      simp
    | some procs =>
      by_cases hp : proc ∈ procs
      · simp only [if_pos hp, Option.some.injEq, exists_eq_left', true_and]
        constructor
        · intro hx
          exact Or.inl hx
        · rintro (hx | hx)
          · exact hx
          · rw [hx]
            exact hp
      · simp only [if_neg hp, Option.some.injEq, exists_eq_left', true_and,
          mem_str_set_insert]
        tauto
  · rw [if_neg hk]
    simp [hk]


theorem update_uid_map_total (env : Env) (w : World) (s : State) (hm : HideMap) (um : UidMap)
    (hh : s.hide_map_ = some hm) (hu : s.uid_proc_map = some um) :
    ∃ t, update_uid_map env w s = some t ∧ t.hide_map_ = some hm ∧
      t.uid_proc_map.isSome = true ∧ t.trace = s.trace ∧ t.db_hidelist = s.db_hidelist ∧
      t.hide_enabled = s.hide_enabled ∧ t.procfp = s.procfp := by
  unfold update_uid_map
  by_cases hk : do_kill env s = true
  · simp only [hk, Bool.not_true, Bool.false_eq_true, if_false, hu]
    cases hus : w.users with
    | none => exact ⟨_, rfl, hh, rfl, rfl, rfl, rfl, rfl⟩
    | some users =>
      simp only [hh]
      exact ⟨_, rfl, rfl, rfl, rfl, rfl, rfl, rfl⟩
  · have hk2 : do_kill env s = false := by simpa using hk
    simp only [hk2, Bool.not_false, if_true]
    exact ⟨s, rfl, hh, by simp [hu], rfl, rfl, rfl, rfl⟩

theorem add_hide_set_total (env : Env) (w : World) (pkg proc : String) (s : State)
    (hm : HideMap) (hh : s.hide_map_ = some hm)
    (hp : do_kill env s = true → s.procfp = true) :
    ∃ evs, add_hide_set env w pkg proc s =
      some ((hide_map_emplace hm pkg proc).2,
        { s with hide_map_ := some (hide_map_emplace hm pkg proc).1,
                 trace := s.trace ++ evs }) ∧
      ((hide_map_emplace hm pkg proc).2 = false → evs = []) := by
  unfold add_hide_set
  simp only [hh]
  by_cases h2 : (hide_map_emplace hm pkg proc).2 = true
  · simp only [h2, Bool.not_true, Bool.false_eq_true, if_false]
    by_cases hk : do_kill env s = true
    · have hk1 : do_kill env { s with hide_map_ := some (hide_map_emplace hm pkg proc).1 }
          = true := hk
      have hpr := hp hk
      simp only [hk1, Bool.not_true, Bool.false_eq_true, if_false, kill_process_eq]
      simp only [hpr, if_true, Option.map_some']
      by_cases hiso : str_eql pkg env.ISOLATED_MAGIC = true
      · rw [if_pos hiso]
        exact ⟨scan_trace env proc true (proc_name_match str_starts w) w.proc_entries,
          by simp [hpr], by simp⟩
      · rw [if_neg hiso]
        exact ⟨scan_trace env proc false (proc_name_match str_eql w) w.proc_entries,
          by simp [hpr], by simp⟩
    · have hk1 : do_kill env { s with hide_map_ := some (hide_map_emplace hm pkg proc).1 }
          = false := by simpa using hk
      simp only [hk1, Bool.not_false, if_true]
      exact ⟨[], by simp, by simp⟩
  · have h2f : (hide_map_emplace hm pkg proc).2 = false := by simpa using h2
    simp only [h2f, Bool.not_false, if_true]
    exact ⟨[], by simp, by simp⟩


/-! ### `add_list` on an initialised state -/

/-- C11: on an initialised state and for a pair that passes `validate` (an empty
process standing for the package name), `add_list` returns `HIDE_ITEM_EXIST`
exactly when the pair is in the hide list, and then the whole state (hide
list, app-ID map, durable store, trace of probes and kills) is unchanged;
otherwise it returns `DAEMON_SUCCESS` or, when the `INSERT` fails,
`DAEMON_ERROR`, and the pairs of the hide list afterwards are the previous
pairs and that one pair. -/
theorem add_list_exists_iff (env : Env) (w : World) (pkg proc : String) (s : State)
    (hm : HideMap) (um : UidMap)
    (hh : s.hide_map_ = some hm) (hu : s.uid_proc_map = some um)
    (hv : validate env pkg (if proc = "" then pkg else proc) = true)
    (hp : do_kill env s = true → s.procfp = true) :
    ∃ r t, add_list env w pkg proc s = some (r, t) ∧
      (r = Status.HIDE_ITEM_EXIST ↔
        in_registry hm pkg (if proc = "" then pkg else proc) = true) ∧
      (r = Status.HIDE_ITEM_EXIST → t = s) ∧
      (r ≠ Status.HIDE_ITEM_EXIST →
        (r = Status.DAEMON_SUCCESS ∨ r = Status.DAEMON_ERROR) ∧
        ∃ hm2, t.hide_map_ = some hm2 ∧
          ∀ k x, in_registry hm2 k x =
            (in_registry hm k x ||
              (decide (k = pkg) && decide (x = if proc = "" then pkg else proc)))) := by
  generalize hreg : (if proc = "" then pkg else proc) = reg at hv ⊢
  obtain ⟨evs, hadd, hevs⟩ := add_hide_set_total env w pkg reg s hm hh hp
  have hsec := hide_map_emplace_second hm pkg reg
  unfold add_list
  simp only [hreg, hv, Bool.not_true, Bool.false_eq_true, if_false,
    init_list_ready env w s um hu, hadd]
  by_cases hin : in_registry hm pkg reg = true
  · have h2 : (hide_map_emplace hm pkg reg).2 = false := by rw [hsec, hin]; rfl
    have hst : ({ s with hide_map_ := some (hide_map_emplace hm pkg reg).1, trace := s.trace ++ evs } : State) = s := by
      rw [hide_map_emplace_exists hm pkg reg hin, hevs h2, List.append_nil, ← hh]
    simp only [h2, hst]
    exact ⟨_, _, rfl, by simp [hin], fun _ => rfl, fun h => absurd rfl h⟩
  · have hin2 : in_registry hm pkg reg = false := by simpa using hin
    have h2 : (hide_map_emplace hm pkg reg).2 = true := by rw [hsec, hin2]; rfl
    simp only [h2]
    obtain ⟨t3, hup, hh3, -, -, -, -, -⟩ := update_uid_map_total env w
      { s with hide_map_ := some (hide_map_emplace hm pkg reg).1, trace := s.trace ++ evs }
      (hide_map_emplace hm pkg reg).1 um rfl hu
    simp only [hup]
    by_cases hdb : insert_fails w pkg reg = true
    · rw [if_pos hdb]
      refine ⟨_, _, rfl, by simp [hin2], fun h => (by cases h), fun _ => ⟨Or.inr rfl, ?_⟩⟩
      exact ⟨_, hh3, fun k x => in_registry_emplace hm pkg reg k x⟩
    · rw [if_neg hdb]
      refine ⟨_, _, rfl, by simp [hin2], fun h => (by cases h), fun _ => ⟨Or.inl rfl, ?_⟩⟩
      exact ⟨_, hh3, fun k x => in_registry_emplace hm pkg reg k x⟩


/-- C11 on the enabled sample state, for the seeded pair: `add_list` returns
`HIDE_ITEM_EXIST` and changes nothing. -/
theorem add_list_exists_iff_witness :
    State.sample_enabled.hide_map_ =
      some [("com.google.android.gms", ["com.google.android.gms.unstable"])] ∧
    State.sample_enabled.uid_proc_map = some [(0, ["com.google.android.gms.unstable"])] ∧
    validate Env.android "com.google.android.gms"
      (if "com.google.android.gms.unstable" = "" then "com.google.android.gms"
        else "com.google.android.gms.unstable") = true ∧
    (do_kill Env.android State.sample_enabled = true →
      State.sample_enabled.procfp = true) ∧
    add_list Env.android World.sample "com.google.android.gms"
        "com.google.android.gms.unstable" State.sample_enabled =
      some (Status.HIDE_ITEM_EXIST, State.sample_enabled) ∧
    ∃ r t, add_list Env.android World.sample "com.google.android.gms"
        "com.google.android.gms.unstable" State.sample_enabled = some (r, t) ∧
      (r = Status.HIDE_ITEM_EXIST ↔
        in_registry [("com.google.android.gms", ["com.google.android.gms.unstable"])]
          "com.google.android.gms"
          (if "com.google.android.gms.unstable" = "" then "com.google.android.gms"
            else "com.google.android.gms.unstable") = true) ∧
      (r = Status.HIDE_ITEM_EXIST → t = State.sample_enabled) :=
  ⟨by decide, by decide, by decide, by decide, by decide,
    (add_list_exists_iff Env.android World.sample "com.google.android.gms"
      "com.google.android.gms.unstable" State.sample_enabled
      [("com.google.android.gms", ["com.google.android.gms.unstable"])]
      [(0, ["com.google.android.gms.unstable"])] (by decide) (by decide) (by decide)
      (by decide)).imp fun _ h => h.imp fun _ h2 => ⟨h2.1, h2.2.1, h2.2.2.1⟩⟩

/-! ### `rm_list` -/

theorem lookup_filter_key {V : Type} (pkg : String) (l : List (String × V)) (k : String) :
    List.lookup k (l.filter (fun e => decide (e.1 ≠ pkg))) =
      if k = pkg then none else List.lookup k l := by
  induction l with
  | nil => simp
  | cons e l ih =>
    obtain ⟨a, b⟩ := e
    rw [List.filter_cons]
    by_cases ha : a = pkg
    · have hd : decide ((a, b).1 ≠ pkg) = false := by simp [ha]
      rw [hd]
      simp only [Bool.false_eq_true, if_false]
      rw [ih, lookup_cons_eq]
      by_cases hk : k = pkg
      · rw [if_pos hk, if_pos hk]
      · have hka : ¬ k = a := by rw [ha]; exact hk
        rw [if_neg hk, if_neg hk, if_neg hka]
    · have hd : decide ((a, b).1 ≠ pkg) = true := by simp [ha]
      rw [hd, if_pos rfl, lookup_cons_eq, lookup_cons_eq, ih]
      by_cases hk : k = pkg
      · have hka : ¬ k = a := by rw [hk]; exact fun h => ha h.symm
        rw [if_pos hk, if_neg hka, if_pos hk]
      · rw [if_neg hk, if_neg hk]

theorem hide_map_erase_second (hm : HideMap) (pkg : String) :
    (hide_map_erase hm pkg).2 = (hm.lookup pkg).isSome := rfl

theorem hide_map_erase_absent (hm : HideMap) (pkg : String) (h : hm.lookup pkg = none) :
    (hide_map_erase hm pkg).1 = hm := by
  unfold hide_map_erase
  simp only []
  induction hm with
  | nil => rfl
  | cons e l ih =>
    obtain ⟨a, b⟩ := e
    rw [lookup_cons_eq] at h
    by_cases hpa : pkg = a
    · rw [if_pos hpa] at h
      cases h
    · rw [if_neg hpa] at h
      have hd : decide ((a, b).1 ≠ pkg) = true := by
        simp
        exact fun h2 => hpa h2.symm
      rw [List.filter_cons, hd, if_pos rfl, ih h]

theorem hide_map_erase_proc_second (hm : HideMap) (pkg proc : String) :
    (hide_map_erase_proc hm pkg proc).2 = in_registry hm pkg proc := by
  unfold hide_map_erase_proc in_registry
  cases h : hm.lookup pkg with
  | none => rfl
  | some procs =>
    by_cases hp : proc ∈ procs
    · simp [hp]
    · simp [hp]

theorem hide_map_erase_proc_absent (hm : HideMap) (pkg proc : String)
    (h : in_registry hm pkg proc = false) : (hide_map_erase_proc hm pkg proc).1 = hm := by
  unfold hide_map_erase_proc
  unfold in_registry at h
  cases hl : hm.lookup pkg with
  | none => rfl
  | some procs =>
    rw [hl] at h
    have hp : ¬ proc ∈ procs := by simpa using h
    simp [hp]

theorem lookup_hide_map_erase_proc (hm : HideMap) (pkg proc : String) (k : String) :
    (hide_map_erase_proc hm pkg proc).1.lookup k =
      if k = pkg then (hm.lookup k).map (fun procs => procs.filter (fun x => decide (x ≠ proc)))
      else hm.lookup k := by
  unfold hide_map_erase_proc
  cases hl : hm.lookup pkg with
  | none =>
    simp only []
    by_cases hk : k = pkg
    · rw [if_pos hk, hk, hl]
      rfl
    · rw [if_neg hk]
  | some procs =>
    by_cases hp : proc ∈ procs
    · simp only [if_pos hp]
      exact lookup_map_update (fun v : str_set => v.filter (fun x => decide (x ≠ proc))) pkg hm k
    · simp only [if_neg hp]
      by_cases hk : k = pkg
      · rw [if_pos hk, hk, hl]
        simp only [Option.map_some', Option.some.injEq]
        symm
        rw [List.filter_eq_self]
        intro x hx
        simp only [decide_eq_true_eq]
        intro hxp
        exact hp (hxp ▸ hx)
      · rw [if_neg hk]

theorem rm_list_after_init (env : Env) (w : World) (pkg proc : String) (s s1 : State)
    (hm : HideMap) (hi : init_list env w s = some (true, s1)) (hh : s1.hide_map_ = some hm) :
    ((rm_erase hm pkg proc).2 = false ∧
      rm_list env w pkg proc s = some (Status.HIDE_ITEM_NOT_EXIST,
        { s1 with hide_map_ := some (rm_erase hm pkg proc).1 })) ∨
    ((rm_erase hm pkg proc).2 = true ∧
      ∃ t3, update_uid_map env w { s1 with hide_map_ := some (rm_erase hm pkg proc).1 }
          = some t3 ∧
        rm_list env w pkg proc s =
          (if delete_fails w pkg proc = true then some (Status.DAEMON_ERROR, t3)
           else some (Status.DAEMON_SUCCESS,
             { t3 with db_hidelist := rm_rows t3.db_hidelist pkg proc }))) := by
  have hu1 : s1.uid_proc_map.isSome = true := (init_list_frame env w s s1 true hi).2.2.2.2.2.1 rfl
  obtain ⟨um, hum⟩ := Option.isSome_iff_exists.1 hu1
  unfold rm_list
  simp only [hi, hh]
  change _ ∨ _
  by_cases he : (rm_erase hm pkg proc).2 = true
  · right
    refine ⟨he, ?_⟩
    obtain ⟨t3, hup, -⟩ := update_uid_map_total env w
      { s1 with hide_map_ := some (rm_erase hm pkg proc).1 } (rm_erase hm pkg proc).1 um rfl hum
    refine ⟨t3, hup, ?_⟩
    unfold rm_erase at he hup
    unfold rm_rows
    simp only [he, Bool.not_true, Bool.false_eq_true, if_false, hup]
    by_cases hd : delete_fails w pkg proc = true
    · simp [hd]
    · by_cases hp : proc = ""
      · simp [hd, hp]
      · simp [hd, hp]
  · left
    have he2 : (rm_erase hm pkg proc).2 = false := by simpa using he
    refine ⟨he2, ?_⟩
    unfold rm_erase at he2 ⊢
    simp only [he2, Bool.not_false, if_true]

theorem rm_erase_second (hm : HideMap) (pkg proc : String) :
    (rm_erase hm pkg proc).2 =
      if proc = "" then (hm.lookup pkg).isSome else in_registry hm pkg proc := by
  unfold rm_erase
  by_cases hp : proc = ""
  · rw [if_pos hp, if_pos hp, hide_map_erase_second]
  · rw [if_neg hp, if_neg hp, hide_map_erase_proc_second]

theorem rm_erase_absent (hm : HideMap) (pkg proc : String)
    (h : (rm_erase hm pkg proc).2 = false) : (rm_erase hm pkg proc).1 = hm := by
  rw [rm_erase_second] at h
  unfold rm_erase
  by_cases hp : proc = ""
  · rw [if_pos hp] at h ⊢
    exact hide_map_erase_absent hm pkg (by simpa using h)
  · rw [if_neg hp] at h ⊢
    exact hide_map_erase_proc_absent hm pkg proc h

/-- C13 (amended): when lazy initialisation succeeds (it does nothing on an
initialised state) and the pair is absent from the initialised hide list (for
an empty process: the package has no entry; otherwise: the pair is not in it),
`rm_list` returns `HIDE_ITEM_NOT_EXIST` and leaves the state as initialisation
left it: hide list, app-ID map, durable store and trace.  On an initialised
state nothing changes at all. -/
theorem rm_list_absent (env : Env) (w : World) (pkg proc : String) (s s1 : State)
    (hm : HideMap)
    (hi : init_list env w s = some (true, s1)) (hh : s1.hide_map_ = some hm)
    (h1 : proc = "" → hm.lookup pkg = none)
    (h2 : proc ≠ "" → in_registry hm pkg proc = false) :
    rm_list env w pkg proc s = some (Status.HIDE_ITEM_NOT_EXIST, s1) ∧
    (s.uid_proc_map.isSome = true → s1 = s) := by
  have habs : (rm_erase hm pkg proc).2 = false := by
    rw [rm_erase_second]
    by_cases hp : proc = ""
    · rw [if_pos hp, h1 hp]
      rfl
    · rw [if_neg hp, h2 hp]
  constructor
  · rcases rm_list_after_init env w pkg proc s s1 hm hi hh with ⟨-, hr⟩ | ⟨he, -⟩
    · rw [hr, rm_erase_absent hm pkg proc habs, ← hh]
    · rw [habs] at he
      cases he
  · intro hu
    obtain ⟨um, hum⟩ := Option.isSome_iff_exists.1 hu
    have := init_list_ready env w s um hum
    rw [this] at hi
    cases hi
    rfl

/-- C13 (amended) on the enabled sample state: the pair
`(com.example.app, com.example.app)` is absent, `rm_list` returns
`HIDE_ITEM_NOT_EXIST` and the state is the same. -/
theorem rm_list_absent_witness :
    init_list Env.android World.sample State.sample_enabled =
      some (true, State.sample_enabled) ∧
    State.sample_enabled.hide_map_ =
      some [("com.google.android.gms", ["com.google.android.gms.unstable"])] ∧
    in_registry [("com.google.android.gms", ["com.google.android.gms.unstable"])]
      "com.example.app" "com.example.app" = false ∧
    rm_list Env.android World.sample "com.example.app" "com.example.app"
      State.sample_enabled = some (Status.HIDE_ITEM_NOT_EXIST, State.sample_enabled) :=
  ⟨by decide, by decide, by decide,
    (rm_list_absent Env.android World.sample "com.example.app" "com.example.app"
      State.sample_enabled State.sample_enabled
      [("com.google.android.gms", ["com.google.android.gms.unstable"])]
      (by decide) (by decide) (fun h => absurd h (by decide)) (fun _ => by decide)).1⟩

/-- C13 as stated fails.  On the boot state over a store holding the row
`(com.example.x, com.example.x)` the hide list is null, so no pair is in it;
yet `rm_list` of that pair loads the row, removes it and returns
`DAEMON_SUCCESS`, and `rm_list` of the absent pair `(com.other.y, com.other.y)`
returns `HIDE_ITEM_NOT_EXIST` but leaves the hide list and the app-ID map
allocated.  On the enabled sample state the pair `(com.google.android.gms, "")`
is not in the hide list, yet `rm_list` returns `DAEMON_SUCCESS` and drops the
whole package. -/
theorem rm_list_absent_counterexample :
    (State.boot [("com.example.x", "com.example.x")] none).hide_map_ = none ∧
    (State.boot [("com.example.x", "com.example.x")] none).uid_proc_map = none ∧
    (∃ t, rm_list Env.android World.sample "com.example.x" "com.example.x"
        (State.boot [("com.example.x", "com.example.x")] none) =
          some (Status.DAEMON_SUCCESS, t) ∧
      t.hide_map_ = some [("com.example.x", [])] ∧ t.db_hidelist = []) ∧
    (∃ t, rm_list Env.android World.sample "com.other.y" "com.other.y"
        (State.boot [("com.example.x", "com.example.x")] none) =
          some (Status.HIDE_ITEM_NOT_EXIST, t) ∧
      t.hide_map_ = some [("com.example.x", ["com.example.x"])] ∧
      t.uid_proc_map = some []) ∧
    in_registry [("com.google.android.gms", ["com.google.android.gms.unstable"])]
      "com.google.android.gms" "" = false ∧
    State.sample_enabled.hide_map_ =
      some [("com.google.android.gms", ["com.google.android.gms.unstable"])] ∧
    (∃ t, rm_list Env.android World.sample "com.google.android.gms" ""
        State.sample_enabled = some (Status.DAEMON_SUCCESS, t) ∧
      t.hide_map_ = some [] ∧ t.uid_proc_map = some []) :=
  ⟨by decide, by decide, ⟨_, rfl, by decide, by decide⟩, ⟨_, rfl, by decide, by decide⟩,
    by decide, by decide, ⟨_, rfl, by decide, by decide⟩⟩

theorem lookup_of_all (hm : HideMap) (pkg : String) (v : str_set)
    (hex : ∃ e ∈ hm, e.1 = pkg) (hall : ∀ e ∈ hm, e.1 = pkg → e.2 = v) :
    hm.lookup pkg = some v := by
  induction hm with
  | nil =>
    obtain ⟨e, he, -⟩ := hex
    cases he
  | cons e l ih =>
    obtain ⟨a, b⟩ := e
    rw [lookup_cons_eq]
    by_cases hpa : pkg = a
    · rw [if_pos hpa]
      have := hall (a, b) (List.mem_cons_self _ _) hpa.symm
      simp only at this
      rw [this]
    · rw [if_neg hpa]
      apply ih
      · obtain ⟨e, he, hek⟩ := hex
        rcases List.mem_cons.1 he with h | h
        · rw [h] at hek
          exact absurd hek.symm hpa
        · exact ⟨e, h, hek⟩
      · intro e he
        exact hall e (List.mem_cons_of_mem _ he)

theorem ls_records_erase_proc_single (hm : HideMap) (pkg proc : String)
    (hall : ∀ e ∈ hm, e.1 = pkg → e.2 = [proc]) :
    ls_records (hm.map (fun e =>
        if e.1 = pkg then (e.1, e.2.filter (fun x => decide (x ≠ proc))) else e)) =
      ls_records (hm.filter (fun e => decide (e.1 ≠ pkg))) := by
  induction hm with
  | nil => rfl
  | cons e l ih =>
    obtain ⟨a, b⟩ := e
    have ih2 := ih (fun e he => hall e (List.mem_cons_of_mem _ he))
    rw [List.map_cons, List.filter_cons]
    by_cases ha : a = pkg
    · have hb : b = [proc] := hall (a, b) (List.mem_cons_self _ _) ha
      have hd : decide ((a, b).1 ≠ pkg) = false := by simp [ha]
      rw [hd]
      simp only [ha, if_true, Bool.false_eq_true, if_false]
      rw [ls_records, ih2, hb]
      simp [ls_procs]
    · have hd : decide ((a, b).1 ≠ pkg) = true := by simp [ha]
      rw [hd]
      simp only [ha, if_false, if_true]
      rw [ls_records, ls_records, ih2]

theorem ls_list_ready (env : Env) (w : World) (s : State) (hm : HideMap) (um : UidMap)
    (hh : s.hide_map_ = some hm) (hu : s.uid_proc_map = some um) :
    ls_list env w s =
      some ([Out.status Status.DAEMON_SUCCESS] ++ ls_records hm ++ [Out.int 0], s) := by
  unfold ls_list
  simp only [init_list_ready env w s um hu, hh]

theorem rm_list_not_found (env : Env) (w : World) (pkg proc : String) (s s1 : State)
    (hm : HideMap) (hi : init_list env w s = some (true, s1)) (hh : s1.hide_map_ = some hm)
    (habs : (rm_erase hm pkg proc).2 = false) :
    rm_list env w pkg proc s = some (Status.HIDE_ITEM_NOT_EXIST, s1) := by
  rcases rm_list_after_init env w pkg proc s s1 hm hi hh with ⟨-, hr⟩ | ⟨he, -⟩
  · rw [hr, rm_erase_absent hm pkg proc habs, ← hh]
  · rw [habs] at he
    cases he

/-- C20, amended: on an initialised state whose hide list holds, for `pkg`,
exactly the one process name `proc`, `proc` not the empty string, and with
`DELETE` statements that do not fail:
`rm_list(pkg, proc)` succeeds and leaves the key `pkg` with an empty set;
`ls_list` then writes what it writes for the hide list without the package;
`rm_list(pkg, "")` then still returns `DAEMON_SUCCESS`, and only after it does
`rm_list(pkg, "")` return `HIDE_ITEM_NOT_EXIST`. -/
theorem rm_list_leaves_empty_key (env : Env) (w1 w2 : World) (pkg proc : String)
    (s : State) (hm : HideMap) (um : UidMap)
    (hh : s.hide_map_ = some hm) (hu : s.uid_proc_map = some um)
    (hex : ∃ e ∈ hm, e.1 = pkg) (hall : ∀ e ∈ hm, e.1 = pkg → e.2 = [proc])
    (hproc : proc ≠ "")
    (hd1 : delete_fails w1 pkg proc = false) (hd2 : delete_fails w2 pkg "" = false) :
    ∃ t1 t2 hm1, rm_list env w1 pkg proc s = some (Status.DAEMON_SUCCESS, t1) ∧
      t1.hide_map_ = some hm1 ∧ hm1.lookup pkg = some [] ∧
      (∀ w, ls_list env w t1 = some ([Out.status Status.DAEMON_SUCCESS]
        ++ ls_records (hm.filter (fun e => decide (e.1 ≠ pkg))) ++ [Out.int 0], t1)) ∧
      rm_list env w2 pkg "" t1 = some (Status.DAEMON_SUCCESS, t2) ∧
      (∀ x, in_registry hm1 pkg x = false) ∧
      ∀ w3, rm_list env w3 pkg "" t2 = some (Status.HIDE_ITEM_NOT_EXIST, t2) := by
  have hlook := lookup_of_all hm pkg [proc] hex hall
  have hin : in_registry hm pkg proc = true := by
    unfold in_registry
    rw [hlook]
    simp
  have he1 : rm_erase hm pkg proc =
      (hm.map (fun e =>
        if e.1 = pkg then (e.1, e.2.filter (fun x => decide (x ≠ proc))) else e), true) := by
    unfold rm_erase hide_map_erase_proc
    rw [if_neg hproc, hlook]
    simp
  have hl1 : (rm_erase hm pkg proc).1.lookup pkg = some [] := by
    have := lookup_hide_map_erase_proc hm pkg proc pkg
    unfold rm_erase
    rw [if_neg hproc, this, if_pos rfl, hlook]
    simp
  -- first removal
  rcases rm_list_after_init env w1 pkg proc s s hm (init_list_ready env w1 s um hu) hh with
    ⟨hf, -⟩ | ⟨-, t3, hup, hr1⟩
  · rw [he1] at hf
    cases hf
  · obtain ⟨g1, -, -, -, -, -, -, g8, -⟩ := update_uid_map_frame env w1 _ t3 hup
    rw [hd1] at hr1
    simp only [Bool.false_eq_true, if_false] at hr1
    have hu3 : t3.uid_proc_map.isSome = true := g8 (by simp [hu])
    obtain ⟨um3, hum3⟩ := Option.isSome_iff_exists.1 hu3
    -- second removal
    rcases rm_list_after_init env w2 pkg "" { t3 with db_hidelist := rm_rows t3.db_hidelist pkg proc }
        { t3 with db_hidelist := rm_rows t3.db_hidelist pkg proc } (rm_erase hm pkg proc).1
        (init_list_ready env w2 _ um3 hum3) g1 with ⟨hf, -⟩ | ⟨-, t5, hup5, hr2⟩
    · rw [rm_erase_second, if_pos rfl, hl1] at hf
      cases hf
    · obtain ⟨k1, -, -, -, -, -, -, k8, -⟩ := update_uid_map_frame env w2 _ t5 hup5
      rw [hd2] at hr2
      simp only [Bool.false_eq_true, if_false] at hr2
      have hu5 : t5.uid_proc_map.isSome = true := k8 hu3
      obtain ⟨um5, hum5⟩ := Option.isSome_iff_exists.1 hu5
      have hl5 : (rm_erase (rm_erase hm pkg proc).1 pkg "").1.lookup pkg = none := by
        unfold rm_erase
        rw [if_pos rfl]
        unfold hide_map_erase
        simp only []
        rw [lookup_filter_key, if_pos rfl]
      refine ⟨_, _, (rm_erase hm pkg proc).1, hr1, g1, hl1, ?_, hr2, ?_, ?_⟩
      · intro w
        rw [ls_list_ready env w { t3 with db_hidelist := rm_rows t3.db_hidelist pkg proc }
          (rm_erase hm pkg proc).1 um3 g1 hum3, he1,
          ls_records_erase_proc_single hm pkg proc hall]
      · intro x
        unfold in_registry
        rw [hl1]
        simp
      · intro w3
        exact rm_list_not_found env w3 pkg ""
          { t5 with db_hidelist := rm_rows t5.db_hidelist pkg "" }
          { t5 with db_hidelist := rm_rows t5.db_hidelist pkg "" }
          (rm_erase (rm_erase hm pkg proc).1 pkg "").1
          (init_list_ready env w3 { t5 with db_hidelist := rm_rows t5.db_hidelist pkg "" }
            um5 hum5) k1 (by rw [rm_erase_second, if_pos rfl, hl5]; rfl)


/-- C20 on the sample state holding the isolated name `sandbox_proc`. -/
theorem rm_list_leaves_empty_key_witness :
    State.sample_isolated.hide_map_ =
      some [("com.google.android.gms", ["com.google.android.gms.unstable"]),
        ("isolated", ["sandbox_proc"])] ∧
    State.sample_isolated.uid_proc_map =
      some [(-1, ["sandbox_proc"]), (0, ["com.google.android.gms.unstable"])] ∧
    delete_fails World.sample "isolated" "sandbox_proc" = false ∧
    delete_fails World.sample "isolated" "" = false ∧
    ls_list Env.android World.sample State.sample_removed =
      some ([Out.status Status.DAEMON_SUCCESS, Out.int 54,
        Out.bytes "com.google.android.gms", Out.bytes "|",
        Out.bytes "com.google.android.gms.unstable", Out.int 0], State.sample_removed) ∧
    ∃ t1 t2 hm1, rm_list Env.android World.sample "isolated" "sandbox_proc"
        State.sample_isolated = some (Status.DAEMON_SUCCESS, t1) ∧
      t1.hide_map_ = some hm1 ∧ hm1.lookup "isolated" = some [] ∧
      (∀ w, ls_list Env.android w t1 = some ([Out.status Status.DAEMON_SUCCESS]
        ++ ls_records (List.filter (fun e => decide (e.1 ≠ "isolated"))
          [("com.google.android.gms", ["com.google.android.gms.unstable"]),
            ("isolated", ["sandbox_proc"])]) ++ [Out.int 0], t1)) ∧
      rm_list Env.android World.sample "isolated" "" t1 = some (Status.DAEMON_SUCCESS, t2) ∧
      (∀ x, in_registry hm1 "isolated" x = false) ∧
      ∀ w3, rm_list Env.android w3 "isolated" "" t2 =
        some (Status.HIDE_ITEM_NOT_EXIST, t2) :=
  ⟨by decide, by decide, by decide, by decide, by decide,
    rm_list_leaves_empty_key Env.android World.sample World.sample "isolated" "sandbox_proc"
      State.sample_isolated
      [("com.google.android.gms", ["com.google.android.gms.unstable"]),
        ("isolated", ["sandbox_proc"])]
      [(-1, ["sandbox_proc"]), (0, ["com.google.android.gms.unstable"])]
      (by decide) (by decide) ⟨("isolated", ["sandbox_proc"]), by decide, rfl⟩ (by decide)
      (by decide) (by decide) (by decide)⟩

/-! ### Exact results of initialisation and recomputation -/

theorem update_uid_map_eq (env : Env) (w : World) (s : State) (hm : HideMap) (um : UidMap)
    (hh : s.hide_map_ = some hm) (hu : s.uid_proc_map = some um) :
    update_uid_map env w s =
      some { s with uid_proc_map := some (if do_kill env s = true then recomputed env w hm else um) } := by
  unfold update_uid_map recomputed
  by_cases hk : do_kill env s = true
  · simp only [hk, Bool.not_true, Bool.false_eq_true, if_false, hu, if_true]
    cases hus : w.users with
    | none => rfl
    | some users => simp only [hh]
  · have hk2 : do_kill env s = false := by simpa using hk
    simp only [hk2, Bool.not_false, if_true, Bool.false_eq_true, if_false]
    rw [← hu]

theorem load_rows_eq (env : Env) (w : World) (rows : List (String × String)) (s : State)
    (hm : HideMap) (hh : s.hide_map_ = some hm)
    (hp : do_kill env s = true → s.procfp = true) :
    ∃ evs, load_rows env w rows s =
      some { s with hide_map_ := some (emplace_rows hm rows), trace := s.trace ++ evs } ∧
      (do_kill env s = false → evs = []) := by
  induction rows generalizing s hm with
  | nil =>
    refine ⟨[], ?_, fun _ => rfl⟩
    simp [load_rows, emplace_rows, ← hh]
  | cons row rows ih =>
    obtain ⟨evs1, hadd, -⟩ := add_hide_set_total env w row.1 row.2 s hm hh hp
    have hnk : do_kill env s = false → evs1 = [] := by
      intro hk
      have h0 := hadd
      unfold add_hide_set at h0
      simp only [hh] at h0
      by_cases h2 : (hide_map_emplace hm row.1 row.2).2 = true
      · have hk1 : do_kill env { s with hide_map_ := some (hide_map_emplace hm row.1 row.2).1 }
            = false := hk
        simp only [h2, Bool.not_true, Bool.false_eq_true, if_false, hk1, Bool.not_false,
          if_true, Option.some.injEq, Prod.mk.injEq, true_and] at h0
        have := congrArg State.trace h0
        simpa using this.symm
      · have h2f : (hide_map_emplace hm row.1 row.2).2 = false := by simpa using h2
        simp only [h2f, Bool.not_false, if_true, Option.some.injEq, Prod.mk.injEq,
          true_and] at h0
        have := congrArg State.trace h0
        simpa using this.symm
    obtain ⟨evs2, hload, hnk2⟩ := ih
      { s with hide_map_ := some (hide_map_emplace hm row.1 row.2).1, trace := s.trace ++ evs1 }
      (hide_map_emplace hm row.1 row.2).1 rfl hp
    refine ⟨evs1 ++ evs2, ?_, ?_⟩
    · rw [load_rows, hadd]
      simp only []
      rw [hload, emplace_rows]
      simp
    · intro hk
      rw [hnk hk, hnk2 hk]
      rfl

theorem init_list_fresh (env : Env) (w : World) (s : State)
    (hu : s.uid_proc_map = none) (hp : do_kill env s = true → s.procfp = true)
    (hsel : w.db_select_error = none) (hino : 0 ≤ w.inotify_init1) :
    ∃ evs, init_list env w s =
      some (true, { s with
        hide_map_ := some (emplace_rows [] s.db_hidelist),
        uid_proc_map := some (if do_kill env s = true
          then recomputed env w (emplace_rows [] s.db_hidelist) else []),
        inotify_fd := w.inotify_init1, trace := s.trace ++ evs }) ∧
      (do_kill env s = false → evs = []) := by
  obtain ⟨evs, hload, hnk⟩ := load_rows_eq env w s.db_hidelist { s with hide_map_ := some [] }
    [] rfl hp
  refine ⟨evs, ?_, hnk⟩
  dsimp only at hload
  have hrows : db_select_rows w { s with hide_map_ := some [] } = s.db_hidelist := by
    simp [db_select_rows, hsel]
  have hneg : ¬ w.inotify_init1 < 0 := by omega
  unfold init_list
  rw [if_neg (by simp [hu])]
  dsimp only
  rw [hrows, hload]
  dsimp only
  rw [if_neg (by simp [hsel]),
    update_uid_map_eq env w _ (emplace_rows [] s.db_hidelist) [] rfl rfl]
  dsimp only
  rw [if_neg hneg]
  rfl


/-- C19: with the hide list allocated and enforcement active, `update_uid_map`
replaces the app-ID map by `recomputed env w hm`, a function of the hide list
and of the world only: the result is the same for any two previous maps, and
running it again on its result changes nothing.  With enforcement inactive it
returns the state as it is. -/
theorem update_uid_map_rebuilds (env : Env) (w : World) (s : State) (hm : HideMap)
    (um1 um2 : UidMap) (hh : s.hide_map_ = some hm) :
    (do_kill env s = true →
      update_uid_map env w { s with uid_proc_map := some um1 } =
        some { s with uid_proc_map := some (recomputed env w hm) } ∧
      update_uid_map env w { s with uid_proc_map := some um1 } =
        update_uid_map env w { s with uid_proc_map := some um2 } ∧
      update_uid_map env w { s with uid_proc_map := some (recomputed env w hm) } =
        some { s with uid_proc_map := some (recomputed env w hm) }) ∧
    (do_kill env s = false → update_uid_map env w s = some s) := by
  constructor
  · intro hk
    have key : ∀ um : UidMap, update_uid_map env w { s with uid_proc_map := some um } =
        some { s with uid_proc_map := some (recomputed env w hm) } := by
      intro um
      have hk1 : do_kill env { s with uid_proc_map := some um } = true := hk
      rw [update_uid_map_eq env w { s with uid_proc_map := some um } hm um hh rfl, if_pos hk1]
    exact ⟨key um1, (key um1).trans (key um2).symm, key _⟩
  · intro hk
    unfold update_uid_map
    simp [hk]

/-- C19 on the sample state holding the isolated name: whatever the previous
map, the recomputed map is the one built from the hide list. -/
theorem update_uid_map_rebuilds_witness :
    State.sample_isolated.hide_map_ =
      some [("com.google.android.gms", ["com.google.android.gms.unstable"]),
        ("isolated", ["sandbox_proc"])] ∧
    do_kill Env.android State.sample_isolated = true ∧
    update_uid_map Env.android World.sample
        { State.sample_isolated with uid_proc_map := some [(7, ["stale"])] } =
      some State.sample_isolated ∧
    update_uid_map Env.android World.sample
        { State.sample_isolated with uid_proc_map := some [(7, ["stale"])] } =
      update_uid_map Env.android World.sample
        { State.sample_isolated with uid_proc_map := some [] } :=
  ⟨by decide, by decide, by decide,
    ((update_uid_map_rebuilds Env.android World.sample State.sample_isolated
      [("com.google.android.gms", ["com.google.android.gms.unstable"]),
        ("isolated", ["sandbox_proc"])] [(7, ["stale"])] [] (by decide)).1 (by decide)).2.1⟩

/-- C12, amended: on a state with a null app-ID map over an empty durable store,
in a world where the `SELECT`, `xinotify_init1` and the `INSERT` do not fail,
and for a package name `p` with `validate(p, p)` and at most 2018 characters,
so that the `INSERT` text fits `sql[4096]`: `add_list(p, "")` returns
`DAEMON_SUCCESS`, the hide list and the store then hold exactly the pair
`(p, p)`, and `ls_list` writes the success status, one record (the length
`2 * len(p) + 1`, then `p`, `|`, `p`) and the terminating zero. -/
theorem add_then_list (env : Env) (w : World) (p : String) (s : State)
    (hv : validate env p p = true)
    (hu : s.uid_proc_map = none) (hrows : s.db_hidelist = [])
    (hp : do_kill env s = true → s.procfp = true)
    (hsel : w.db_select_error = none) (hino : 0 ≤ w.inotify_init1)
    (hins : w.db_insert_error = false) (hlen : p.length ≤ 2018) :
    ∃ t, add_list env w p "" s = some (Status.DAEMON_SUCCESS, t) ∧
      t.hide_map_ = some [(p, [p])] ∧ t.db_hidelist = [(p, p)] ∧
      ∀ w2, ls_list env w2 t =
        some ([Out.status Status.DAEMON_SUCCESS, Out.int (2 * p.length + 1), Out.bytes p,
          Out.bytes "|", Out.bytes p, Out.int 0], t) := by
  obtain ⟨evs, hinit, -⟩ := init_list_fresh env w s hu hp hsel hino
  rw [hrows] at hinit
  have hem : hide_map_emplace ([] : HideMap) p p = ([(p, [p])], true) := by
    simp [hide_map_emplace]
  obtain ⟨evs2, hadd, -⟩ := add_hide_set_total env w p p
    { s with hide_map_ := some (emplace_rows [] []),
             uid_proc_map := some (if do_kill env s = true then recomputed env w (emplace_rows [] []) else []),
             inotify_fd := w.inotify_init1, trace := s.trace ++ evs }
    [] rfl hp
  rw [hem] at hadd
  dsimp only at hadd
  rw [hrows] at hadd
  unfold add_list
  simp only [if_true, hv, Bool.not_true, Bool.false_eq_true, if_false, hinit, hadd]
  rw [update_uid_map_eq env w _ [(p, [p])] _ rfl rfl]
  have hfit : insert_fails w p p = false := by
    rw [insert_fails_eq, hins, Bool.false_or, decide_eq_false_iff_not]
    omega
  simp only [hfit, Bool.false_eq_true, if_false]
  refine ⟨_, rfl, rfl, by simp [hrows], ?_⟩
  intro w2
  rw [ls_list_ready env w2 _ [(p, [p])] _ rfl rfl]
  simp [ls_records, ls_procs]
  omega


/-- C12 at `p = "com.example.app"` on the boot state over an empty store: the one
record written is `com.example.app|com.example.app`, of length 31. -/
theorem add_then_list_witness :
    validate Env.android "com.example.app" "com.example.app" = true ∧
    (State.boot [] none).uid_proc_map = none ∧ (State.boot [] none).db_hidelist = [] ∧
    (do_kill Env.android (State.boot [] none) = true → (State.boot [] none).procfp = true) ∧
    World.sample.db_select_error = none ∧ 0 ≤ World.sample.inotify_init1 ∧
    World.sample.db_insert_error = false ∧ "com.example.app".length ≤ 2018 ∧
    ∃ t, add_list Env.android World.sample "com.example.app" "" (State.boot [] none) =
        some (Status.DAEMON_SUCCESS, t) ∧
      t.hide_map_ = some [("com.example.app", ["com.example.app"])] ∧
      t.db_hidelist = [("com.example.app", "com.example.app")] ∧
      ∀ w2, ls_list Env.android w2 t =
        some ([Out.status Status.DAEMON_SUCCESS, Out.int (2 * "com.example.app".length + 1),
          Out.bytes "com.example.app", Out.bytes "|", Out.bytes "com.example.app",
          Out.int 0], t) :=
  ⟨by decide, rfl, rfl, by decide, rfl, by decide, rfl, by decide,
    add_then_list Env.android World.sample "com.example.app" (State.boot [] none)
      (by decide) rfl rfl (by decide) rfl (by decide) rfl (by decide)⟩

theorem do_kill_of_quiet (env : Env) (s : State) (h : quiet s) : do_kill env s = false := by
  simp [do_kill, h.1]

theorem quiet_init_list (env : Env) (w : World) (s : State) (h : quiet s) :
    ∃ b t, init_list env w s = some (b, t) ∧ quiet t ∧
      (b = true → t.uid_proc_map = some []) := by
  obtain ⟨he, hu, hwf⟩ := h
  have hk : do_kill env s = false := by simp [do_kill, he]
  rcases hu with hu | hu
  · obtain ⟨evs, hload, -⟩ := load_rows_eq env w (db_select_rows w { s with hide_map_ := some [] })
      { s with hide_map_ := some [] } [] rfl (fun h => by rw [show do_kill env
        { s with hide_map_ := some [] } = do_kill env s from rfl, hk] at h; cases h)
    dsimp only at hload
    unfold init_list
    rw [if_neg (by simp [hu])]
    dsimp only
    rw [hload]
    dsimp only
    by_cases hsel : w.db_select_error.isSome = true
    · rw [if_pos hsel]
      exact ⟨false, _, rfl, ⟨he, Or.inl hu, fun h => by simp [hu] at h⟩, fun h => by cases h⟩
    · rw [if_neg hsel, update_uid_map_eq env w _ _ [] rfl rfl]
      dsimp only
      have hk2 : do_kill env { s with
          hide_map_ := some (emplace_rows [] (db_select_rows w { s with hide_map_ := some [] })),
          uid_proc_map := some [], trace := s.trace ++ evs } = false := hk
      rw [hk2]
      simp only [Bool.false_eq_true, if_false]
      by_cases hi : w.inotify_init1 < 0
      · rw [if_pos hi]
        exact ⟨false, _, rfl, ⟨he, Or.inr rfl, fun _ => rfl⟩, fun h => by cases h⟩
      · rw [if_neg hi]
        exact ⟨true, _, rfl, ⟨he, Or.inr rfl, fun _ => rfl⟩, fun _ => rfl⟩
  · refine ⟨true, s, init_list_ready env w s [] hu, ⟨he, Or.inr hu, hwf⟩, fun _ => hu⟩

theorem quiet_is_hide_target (env : Env) (w : World) (uid : Int) (process : String)
    (max_len : Int) (s : State) (h : quiet s) :
    ∃ t, is_hide_target env w uid process max_len s = some (false, t) ∧ quiet t := by
  obtain ⟨b, t, hi, hq, hb⟩ := quiet_init_list env w s h
  unfold is_hide_target
  rw [hi]
  cases b with
  | false => exact ⟨t, rfl, hq⟩
  | true =>
    simp only [hb rfl]
    refine ⟨t, ?_, hq⟩
    split_ifs <;> rfl



theorem quiet_update_uid_map (env : Env) (w : World) (s t : State) (h : quiet s)
    (hu : update_uid_map env w s = some t) : t = s := by
  rcases update_uid_map_spec env w s t hu with ⟨-, ht⟩ | ⟨hk, -⟩ | ⟨hk, -⟩
  · exact ht
  · rw [do_kill_of_quiet env s h] at hk; cases hk
  · rw [do_kill_of_quiet env s h] at hk; cases hk

theorem quiet_init_list_eq (env : Env) (w : World) (s t : State) (b : Bool) (h : quiet s)
    (hi : init_list env w s = some (b, t)) : quiet t := by
  obtain ⟨b2, t2, hi2, hq, -⟩ := quiet_init_list env w s h
  rw [hi] at hi2
  cases hi2
  exact hq

theorem quiet_with_hide_map (s : State) (hm : HideMap) (evs : List Event) (h : quiet s) :
    quiet { s with hide_map_ := some hm, trace := s.trace ++ evs } :=
  ⟨h.1, h.2.1, fun _ => rfl⟩

theorem quiet_step (env : Env) (w : World) (op : Op) (s t : State) (h : quiet s)
    (hop : op ≠ Op.launch) (hs : step env w s op = some t) : quiet t := by
  cases op with
  | launch => exact absurd rfl hop
  | stop =>
    simp only [step, Option.some.injEq] at hs
    subst hs
    obtain ⟨f1, f2, -, f4, -⟩ := update_hide_config_frame w
      { (if s.hide_enabled = true then
          { s with hide_map_ := none, uid_proc_map := none, inotify_fd := -1 } else s) with
        hide_enabled := false }
    have hst : (stop_magiskhide w s).2 = update_hide_config w
      { (if s.hide_enabled = true then
          { s with hide_map_ := none, uid_proc_map := none, inotify_fd := -1 } else s) with
        hide_enabled := false } := rfl
    rw [hst]
    refine ⟨by rw [f4], ?_, ?_⟩
    · rw [f2]; simp only [h.1, Bool.false_eq_true, if_false]; exact h.2.1
    · rw [f2, f1]; simp only [h.1, Bool.false_eq_true, if_false]; exact h.2.2
  | ls =>
    simp only [step, Option.map_eq_some', Prod.exists, exists_eq_right] at hs
    obtain ⟨out, hs⟩ := hs
    obtain ⟨b, hi⟩ := ls_list_state env w s t out hs
    exact quiet_init_list_eq env w s t b h hi
  | query uid process max_len =>
    simp only [step, Option.map_eq_some', Prod.exists, exists_eq_right] at hs
    obtain ⟨b, hs⟩ := hs
    obtain ⟨bi, hi⟩ := is_hide_target_state env w uid process max_len s t b hs
    exact quiet_init_list_eq env w s t bi h hi
  | add pkg proc =>
    simp only [step, Option.map_eq_some', Prod.exists, exists_eq_right] at hs
    obtain ⟨r, hs⟩ := hs
    rcases add_list_spec env w pkg proc s t r hs with ⟨-, -, ht⟩ | ⟨-, hrest⟩
    · rw [ht]; exact h
    · rcases hrest with ⟨hi, -⟩ | ⟨s1, hi, hrest⟩
      · exact quiet_init_list_eq env w s t false h hi
      · have hq1 := quiet_init_list_eq env w s s1 true h hi
        rcases hrest with ⟨ha, -⟩ | ⟨s2, s3, ha, hu, hrest⟩
        · obtain ⟨hm, evs, -, -, ht, -⟩ := add_hide_set_spec env w pkg _ s1 t false ha
          rw [ht]
          exact quiet_with_hide_map s1 _ evs hq1
        · obtain ⟨hm, evs, -, -, ht, -⟩ := add_hide_set_spec env w pkg _ s1 s2 true ha
          have hq2 : quiet s2 := by rw [ht]; exact quiet_with_hide_map s1 _ evs hq1
          have h3 := quiet_update_uid_map env w s2 s3 hq2 hu
          subst h3
          rcases hrest with ⟨-, -, ht⟩ | ⟨-, -, ht⟩
          · rw [ht]; exact hq2
          · rw [ht]; exact ⟨hq2.1, hq2.2.1, hq2.2.2⟩
  | rm pkg proc =>
    simp only [step, Option.map_eq_some', Prod.exists, exists_eq_right] at hs
    obtain ⟨r, hs⟩ := hs
    rcases rm_list_spec env w pkg proc s t r hs with ⟨hi, -⟩ | ⟨s1, hm, e, hi, -, -, hrest⟩
    · exact quiet_init_list_eq env w s t false h hi
    · have hq1 := quiet_init_list_eq env w s s1 true h hi
      have hq2 : quiet { s1 with hide_map_ := some e.1 } := ⟨hq1.1, hq1.2.1, fun _ => rfl⟩
      rcases hrest with ⟨-, -, ht⟩ | ⟨-, s3, hu, hrest⟩
      · rw [ht]; exact hq2
      · have h3 := quiet_update_uid_map env w _ s3 hq2 hu
        subst h3
        rcases hrest with ⟨-, -, ht⟩ | ⟨-, -, ht⟩
        · rw [ht]; exact hq2
        · rw [ht]; exact ⟨hq2.1, hq2.2.1, hq2.2.2⟩

theorem quiet_reached (env : Env) (s0 t : State) (h0 : quiet s0)
    (hr : ReachedWithoutLaunch env s0 t) : quiet t := by
  induction hr with
  | start => exact h0
  | step w op s t _ hop hs ih => exact quiet_step env w op s t ih hop hs

theorem quiet_stop (w : World) (s : State) (he : s.hide_enabled = true) :
    quiet (stop_magiskhide w s).2 := by
  obtain ⟨f1, f2, -, f4, -⟩ := update_hide_config_frame w
    { (if s.hide_enabled = true then
        { s with hide_map_ := none, uid_proc_map := none, inotify_fd := -1 } else s) with
      hide_enabled := false }
  have hst : (stop_magiskhide w s).2 = update_hide_config w
    { (if s.hide_enabled = true then
        { s with hide_map_ := none, uid_proc_map := none, inotify_fd := -1 } else s) with
      hide_enabled := false } := rfl
  rw [hst]
  refine ⟨by rw [f4], ?_, ?_⟩
  · rw [f2]; simp [he]
  · rw [f2]; simp [he]

/-- After `stop_magiskhide` on an enabled state, and after any further calls
other than `launch_magiskhide`, `is_hide_target` returns false. -/
theorem disabled_never_target (env : Env) (w0 w : World) (s t : State)
    (he : s.hide_enabled = true)
    (hr : ReachedWithoutLaunch env (stop_magiskhide w0 s).2 t)
    (uid : Int) (process : String) (max_len : Int) :
    ∃ t2, is_hide_target env w uid process max_len t = some (false, t2) := by
  obtain ⟨t2, h, -⟩ := quiet_is_hide_target env w uid process max_len t
    (quiet_reached env _ t (quiet_stop w0 s he) hr)
  exact ⟨t2, h⟩

theorem init_list_failure_cases (env : Env) (w : World) (s t : State)
    (h : init_list env w s = some (false, t)) :
    (w.db_select_error.isSome = true ∧ t.uid_proc_map = none) ∨
    (w.db_select_error = none ∧ w.inotify_init1 < 0 ∧ t.uid_proc_map.isSome = true ∧
      ∀ w2, init_list env w2 t = some (true, t)) := by
  rcases init_list_spec env w s t false h with ⟨-, hb, -⟩ | ⟨hu, s2, hl, hrest⟩
  · cases hb
  · obtain ⟨⟨f1, -⟩, -⟩ := load_rows_frame env w _ _ s2 hl
    rcases hrest with ⟨hsel, -, ht⟩ | ⟨hsel, s4, hup, ht, hb⟩
    · subst ht
      exact Or.inl ⟨hsel, by rw [f1]; exact hu⟩
    · obtain ⟨-, -, -, -, -, -, -, hsome, -⟩ := update_uid_map_frame env w _ s4 hup
      have h4 : s4.uid_proc_map.isSome = true := hsome rfl
      have ht2 : t.uid_proc_map = s4.uid_proc_map := by rw [ht]
      refine Or.inr ⟨hsel, ?_, by rw [ht2]; exact h4, fun w2 => ?_⟩
      · by_contra hc
        simp [hc] at hb
      · cases hum : t.uid_proc_map with
        | none => rw [ht2] at hum; rw [hum] at h4; cases h4
        | some um => exact init_list_ready env w2 t um hum

/-- C18 at the failing input: `launch_magiskhide` from boot, over a store with the
row `("isolated", "sandbox_proc")`, in a world where `xinotify_init1` fails,
reports `DAEMON_ERROR` and clears `hide_enabled`, but leaves the hide list and
the app-ID map built.  The next `init_list`, `ls_list` and `is_hide_target`, in a
world without failure, do not initialise again: they keep the state as it is,
`inotify_fd` still `-1`, and the query is answered from the map of the failed
call. -/
theorem init_list_inotify_failure_kept :
    launch_magiskhide Env.android World.no_inotify
        (State.boot [("isolated", "sandbox_proc")] none) =
      some (Status.DAEMON_ERROR, State.sample_failed_enable) ∧
    State.sample_failed_enable.hide_enabled = false ∧
    State.sample_failed_enable.hide_map_ = some [("isolated", ["sandbox_proc"])] ∧
    State.sample_failed_enable.uid_proc_map = some [(-1, ["sandbox_proc"])] ∧
    State.sample_failed_enable.inotify_fd = -1 ∧
    init_list Env.android World.sample State.sample_failed_enable =
      some (true, State.sample_failed_enable) ∧
    (ls_list Env.android World.sample State.sample_failed_enable).map Prod.snd =
      some State.sample_failed_enable ∧
    is_hide_target Env.android World.sample 99001 "sandbox_proc:1" 255
        State.sample_failed_enable = some (true, State.sample_failed_enable) := by
  decide

/-- C16 at the failing input: after the failed `launch_magiskhide` of
`sample_failed_enable`, the calls `stop_magiskhide`, `ls_list`, `add_list` and
`rm_list` all run with hiding disabled and leave the app-ID map of the failed
call in place, and `is_hide_target(99001, "sandbox_proc:1", 255)` returns true. -/
theorem stale_target_after_stop :
    run Env.android World.sample
        [Op.stop, Op.ls, Op.add "com.example.app" "", Op.rm "com.example.app" ""]
        State.sample_failed_enable = some State.sample_stale ∧
    State.sample_stale.hide_enabled = false ∧
    State.sample_stale.uid_proc_map = some [(-1, ["sandbox_proc"])] ∧
    is_hide_target Env.android World.sample 99001 "sandbox_proc:1" 255 State.sample_stale =
      some (true, State.sample_stale) := by
  decide

/-! ### Validity of the hide list -/

theorem add_list_insert_rejected (env : Env) (w : World) (p : String) (s : State)
    (hv : validate env p p = true)
    (hu : s.uid_proc_map = none) (hrows : s.db_hidelist = [])
    (hp : do_kill env s = true → s.procfp = true)
    (hsel : w.db_select_error = none) (hino : 0 ≤ w.inotify_init1)
    (hcut : insert_fails w p p = true) :
    ∃ t, add_list env w p "" s = some (Status.DAEMON_ERROR, t) ∧
      t.hide_map_ = some [(p, [p])] ∧ t.db_hidelist = [] ∧
      ∀ w2, ls_list env w2 t =
        some ([Out.status Status.DAEMON_SUCCESS, Out.int (2 * p.length + 1), Out.bytes p,
          Out.bytes "|", Out.bytes p, Out.int 0], t) := by
  obtain ⟨evs, hinit, -⟩ := init_list_fresh env w s hu hp hsel hino
  rw [hrows] at hinit
  have hem : hide_map_emplace ([] : HideMap) p p = ([(p, [p])], true) := by
    simp [hide_map_emplace]
  obtain ⟨evs2, hadd, -⟩ := add_hide_set_total env w p p
    { s with hide_map_ := some (emplace_rows [] []),
             uid_proc_map := some (if do_kill env s = true then recomputed env w (emplace_rows [] []) else []),
             inotify_fd := w.inotify_init1, trace := s.trace ++ evs }
    [] rfl hp
  rw [hem] at hadd
  dsimp only at hadd
  rw [hrows] at hadd
  unfold add_list
  simp only [if_true, hv, Bool.not_true, Bool.false_eq_true, if_false, hinit, hadd]
  rw [update_uid_map_eq env w _ [(p, [p])] _ rfl rfl]
  simp only [hcut, if_true]
  refine ⟨_, rfl, rfl, rfl, ?_⟩
  intro w2
  rw [ls_list_ready env w2 _ [(p, [p])] _ rfl rfl]
  simp [ls_records, ls_procs]
  omega

theorem long_name_length (n : Nat) : (long_name n).length = n + 2 := by
  unfold long_name
  rw [String.length]
  simp only [List.length_append, List.length_replicate, List.length_cons, List.length_nil]

theorem long_name_valid (env : Env) (n : Nat) (hne : long_name n ≠ env.ISOLATED_MAGIC) :
    validate env (long_name n) (long_name n) = true := by
  have hv : validate env (long_name n) (long_name n) =
      (validate_pkg (long_name n).data false && validate_proc (long_name n).data) := by
    simp [validate, str_eql, hne]
  have hmem : ∀ c ∈ (long_name n).data, c = 'a' ∨ c = '.' ∨ c = 'b' := by
    intro c hc
    unfold long_name at hc
    simp only [List.mem_append, List.mem_replicate, List.mem_cons, List.mem_singleton,
      List.not_mem_nil, or_false] at hc
    tauto
  have hdot : '.' ∈ (long_name n).data := by
    unfold long_name
    simp only [List.mem_append, List.mem_cons, true_or, or_true]
  rw [hv, Bool.and_eq_true, validate_pkg_iff, validate_proc_iff]
  refine ⟨⟨fun c hc => ?_, Or.inr hdot⟩, fun c hc => ?_⟩
  · rcases hmem c hc with h | h | h
    · rw [h]; exact Or.inl (by decide)
    · exact Or.inr (Or.inr h)
    · rw [h]; exact Or.inl (by decide)
  · rcases hmem c hc with h | h | h
    · rw [h]; exact Or.inl (by decide)
    · exact Or.inr (Or.inr (Or.inr h))
    · rw [h]; exact Or.inl (by decide)

theorem long_package_length : long_package.length = 2019 :=
  long_name_length 2017

theorem long_package_valid : validate Env.android long_package long_package = true := by
  apply long_name_valid
  intro h
  have h2 := congrArg String.length h
  rw [long_name_length] at h2
  revert h2
  decide

/-- C12 as stated fails for a long name.  The package name `long_package`, 2017
times `a` followed by `.b`, passes `validate`, but the `INSERT` text for it has
4097 characters and `sql` holds 4095: on the boot state over an empty store,
in the sample world, where no statement fails, `add_list(long_package, "")`
returns `DAEMON_ERROR`; the hide list holds the pair and `ls_list` writes its
record, and the store holds no row. -/
theorem add_then_list_counterexample :
    validate Env.android long_package long_package = true ∧
    long_package.length = 2019 ∧
    (insert_sql long_package long_package).length = 4097 ∧
    World.sample.db_insert_error = false ∧
    ∃ t, add_list Env.android World.sample long_package "" (State.boot [] none) =
        some (Status.DAEMON_ERROR, t) ∧
      t.hide_map_ = some [(long_package, [long_package])] ∧ t.db_hidelist = [] ∧
      ∀ w2, ls_list Env.android w2 t =
        some ([Out.status Status.DAEMON_SUCCESS, Out.int (2 * long_package.length + 1),
          Out.bytes long_package, Out.bytes "|", Out.bytes long_package, Out.int 0], t) := by
  have hlen : (insert_sql long_package long_package).length = 4097 := by
    rw [insert_sql_length, long_package_length]
  refine ⟨long_package_valid, long_package_length, hlen, rfl, ?_⟩
  refine add_list_insert_rejected Env.android World.sample long_package (State.boot [] none)
    long_package_valid rfl rfl (by decide) rfl (by decide) ?_
  rw [insert_fails_eq, long_package_length]
  rfl

/-! ### An entry whose one name is empty -/

/-- C20 as stated fails for an entry whose one name is the empty string.  Over
a store with the row `("com.example.x", "")` the hide list holds, for
`com.example.x`, exactly the name `""`; `rm_list("com.example.x", "")` returns
`DAEMON_SUCCESS` and erases the whole entry, no key with an empty set is left,
and the following `rm_list("com.example.x", "")` returns
`HIDE_ITEM_NOT_EXIST`. -/
theorem rm_list_leaves_empty_key_counterexample :
    run Env.android World.sample [Op.ls] (State.boot [("com.example.x", "")] none) =
      some State.sample_blank ∧
    validate Env.android "com.example.x" "" = true ∧
    State.sample_blank.hide_map_ = some [("com.example.x", [""])] ∧
    State.sample_blank.uid_proc_map = some [] ∧
    delete_fails World.sample "com.example.x" "" = false ∧
    ∃ t1, rm_list Env.android World.sample "com.example.x" "" State.sample_blank =
        some (Status.DAEMON_SUCCESS, t1) ∧
      t1.hide_map_ = some [] ∧
      rm_list Env.android World.sample "com.example.x" "" t1 =
        some (Status.HIDE_ITEM_NOT_EXIST, t1) :=
  ⟨by decide, by decide, by decide, by decide, by decide, _, rfl, by decide, by decide⟩

end MagiskHide
